import Mathlib

/-!
Shallow embedding of `springChain.py` (felixSchl/rigify-rigs), the spring-chain
rig generator.  Bones are identified by name; the armature is modelled as a
total map from names to per-bone state (edit-mode parent link, pose-mode
constraint stack, custom properties, transform locks, selectability).  Host
capabilities (bone duplication, parent assignment, constraint and driver
creation, custom numeric property creation) are modelled as pure updates of
that map, following the spec's description of the external interface (spec §6).
Bone-roll alignment (`align_bone_roll`) operates on bone frames and is
modelled separately at the end of the definitions.
-/

/-- Scalar custom property ("knob") as created through
`rna_idprop_ui_prop_get` plus the assignments at `springChain.py:251-254`:
current value plus hard and soft range.  The host stores floats; values are
modelled as rationals. -/
structure UIProp where
  value : ℚ
  min : ℚ
  max : ℚ
  soft_min : ℚ
  soft_max : ℚ
deriving DecidableEq

/-- Driver attached to a constraint parameter (`driver_add(...)` at
`springChain.py:311-337` and `:366-374`): driver type, scripted expression and
the named variables, each resolving to a data path on the rig object (the
`id_type = OBJECT, id = self.obj` targets are implicit: every driver in the
source targets the rig object itself). -/
structure Driver where
  dtype : String
  expression : String
  vars : List (String × String)
deriving DecidableEq

/-- Constraint instance owned by a pose bone (`constraints.new(...)`): kind,
optional explicitly assigned name (the host assigns a default otherwise),
subtarget bone, optional target/owner spaces, optional influence driver, and
parameter drivers added with `driver_add`. -/
structure Constraint where
  ctype : String
  name : Option String
  subtarget : String
  target_space : Option String
  owner_space : Option String
  influenceDriver : Option Driver
  paramDrivers : List (String × Driver)
deriving DecidableEq

/-- How a parent link was established: direct `.parent =` assignment, or the
`bpy.ops.armature.parent_set` operator with `type='OFFSET'` (keeps the child's
world transform) or `type='CONNECTED'` (snaps the child's head to the parent's
tail), cf. `springChain.py:173-181`. -/
inductive Attach where
  | direct
  | offset
  | connected
deriving DecidableEq

/-- Per-bone state tracked by the embedding.  Edit-mode data: the parent link
and how it was attached.  Pose-mode data: constraints, custom properties
(association list in creation order, mirroring the host's id-property dict),
the transform-lock flags of `springChain.py:228-242` and `hide_select`. -/
structure Bone where
  parent : Option String
  attach : Attach
  constraints : List Constraint
  props : List (String × UIProp)
  lock_location_0 : Bool
  lock_location_1 : Bool
  lock_location_2 : Bool
  lock_rotation_0 : Bool
  lock_rotation_1 : Bool
  lock_rotation_2 : Bool
  lock_rotations_4d : Bool
  lock_rotation_w : Bool
  lock_scale_0 : Bool
  lock_scale_1 : Bool
  lock_scale_2 : Bool
  hide_select : Bool
deriving DecidableEq

/-- A bone with no parent, no constraints, no custom properties and all flags
cleared: the state of a freshly created bone. -/
def emptyBone : Bone :=
  { parent := none, attach := Attach.direct, constraints := [], props := []
    lock_location_0 := false, lock_location_1 := false, lock_location_2 := false
    lock_rotation_0 := false, lock_rotation_1 := false, lock_rotation_2 := false
    lock_rotations_4d := false, lock_rotation_w := false
    lock_scale_0 := false, lock_scale_1 := false, lock_scale_2 := false
    hide_select := false }

/-- The armature: a total map from bone names to bone state. -/
abbrev Skeleton := String → Bone

/-- Update the state of one named bone. -/
def pointUpdate (s : Skeleton) (n : String) (f : Bone → Bone) : Skeleton :=
  fun m => if m = n then f (s m) else s m

/-- Rig parameters (`add_parameters`, `springChain.py:404-408`). -/
structure Params where
  unify_spring_props : Bool

/-! ### Name transforms

Modelled from the spec: `strip_org`, `make_deformer_name` and
`make_mechanism_name` are imported from the host framework's `utils` module
(not part of this repository); per spec §3 ("Bone Identity") and the §8
scenario they are the prefix conventions `ORG-`-stripping, `DEF-` and `MCH-`.
-/

/-- Modelled from the spec: the host's `strip_org` removes a leading `ORG-`
prefix from a bone name (expressed on the character list so that concrete
instances evaluate). -/
def strip_org (n : String) : String :=
  if n.data.take 4 = ("ORG-").data then String.mk (n.data.drop 4) else n

/-- Modelled from the spec: the host's `make_deformer_name` prepends `DEF-`. -/
def make_deformer_name (n : String) : String := "DEF-" ++ n

/-- Modelled from the spec: the host's `make_mechanism_name` prepends `MCH-`. -/
def make_mechanism_name (n : String) : String := "MCH-" ++ n

/-- Names of the deform chain (`springChain.py:138-141`). -/
def deformBoneNames (org : List String) : List String :=
  org.map (fun b => make_deformer_name (strip_org b))

/-- Names of the mechanical spring-source chain (`springChain.py:144-149`). -/
def mchSourceNames (org : List String) : List String :=
  org.map (fun b => make_mechanism_name (strip_org b ++ "_source"))

/-- Names of the mechanical spring-target chain (`springChain.py:152-156`). -/
def mchTargetNames (org : List String) : List String :=
  org.map (fun b => make_mechanism_name (strip_org b ++ "_target"))

/-- Names of the control chain (`springChain.py:159-162`). -/
def controlBoneNames (org : List String) : List String := org.map strip_org

/-- Names of the preview chain (`springChain.py:165-168`). -/
def previewBoneNames (org : List String) : List String :=
  org.map (fun b => strip_org b ++ "_preview")

/-- All names created by the five duplication passes, in creation order. -/
def allDerivedNames (org : List String) : List String :=
  deformBoneNames org ++ mchSourceNames org ++ mchTargetNames org ++
    controlBoneNames org ++ previewBoneNames org

/-! ### Host capabilities used by the structural-edit phase -/

/-- Pose-fresh structural copy of a bone: `copy_bone` (host capability, spec
§4.2) duplicates the edit bone (structure and parent link); the new bone's
pose-mode state starts out fresh. -/
def freshCopy (b : Bone) : Bone := { emptyBone with parent := b.parent, attach := b.attach }

/-- Create bone `dst` as a copy of bone `src`. -/
def copyBoneOp (s : Skeleton) (src dst : String) : Skeleton :=
  fun m => if m = dst then freshCopy (s src) else s m

/-- One duplication pass: copy each source bone to the same-index new name. -/
def copyChain (s : Skeleton) (srcs dsts : List String) : Skeleton :=
  (srcs.zip dsts).foldl (fun sk p => copyBoneOp sk p.1 p.2) s

/-- The five duplication passes of `Rig.generate`, in source order
(`springChain.py:137-168`): deform, mch source, mch target, control, preview. -/
def createAllCopies (s : Skeleton) (org : List String) : Skeleton :=
  let s1 := copyChain s org (deformBoneNames org)
  let s2 := copyChain s1 org (mchSourceNames org)
  let s3 := copyChain s2 org (mchTargetNames org)
  let s4 := copyChain s3 org (controlBoneNames org)
  copyChain s4 org (previewBoneNames org)

/-- The `parent` helper (`springChain.py:173-181`): re-parents `child` under
`par` through the `parent_set` operator (OFFSET or CONNECTED), or records a
direct assignment. -/
def setParentOp (s : Skeleton) (child par : String) (a : Attach) : Skeleton :=
  pointUpdate s child (fun b => { b with parent := some par, attach := a })

/-- The tail of the control-parenting loop (`springChain.py:184-191`): each
bone is attached CONNECTED to the previous one. -/
def chainConnect : Skeleton → String → List String → Skeleton
  | s, _, [] => s
  | s, lastName, b :: bs => chainConnect (setParentOp s b lastName Attach.connected) b bs

/-- Control-chain parenting (`springChain.py:183-191`): the first control bone
is directly assigned the captured original parent; each following control bone
is attached CONNECTED to its predecessor. -/
def controlParenting (s : Skeleton) (originalParent : String) : List String → Skeleton
  | [] => s
  | b :: bs => chainConnect (setParentOp s b originalParent Attach.direct) b bs

/-- Deform and preview bones get no parents (`springChain.py:193-195`). -/
def clearParents (s : Skeleton) (names : List String) : Skeleton :=
  names.foldl (fun sk b => pointUpdate sk b (fun bn => { bn with parent := none, attach := Attach.direct })) s

/-- Cross-parenting of the two mechanical chains (`springChain.py:197-206`):
at index `i`, `mch_target[i]` is attached OFFSET under `mch_source[i]`, and
while `i < tot - 1`, `mch_source[i+1]` is attached OFFSET under
`mch_target[i]`. -/
def crossParent : Skeleton → List String → List String → Skeleton
  | s, sourceName :: s2 :: ss, targetName :: ts =>
    crossParent (setParentOp (setParentOp s targetName sourceName Attach.offset) s2 targetName Attach.offset) (s2 :: ss) ts
  | s, [sourceName], targetName :: _ => setParentOp s targetName sourceName Attach.offset
  | s, _, _ => s

/-! ### Pose-phase operations -/

/-- Widget pass (`springChain.py:221-223`): `create_bone_widget` (display
only, external) and `hide_select = True` on each preview bone. -/
def hideSelectStep : Bone → Bone := fun b => { b with hide_select := true }

/-- Apply the widget / `hide_select` pass to the preview bones. -/
def hideSelectPhase (s : Skeleton) (names : List String) : Skeleton :=
  names.foldl (fun sk b => pointUpdate sk b hideSelectStep) s

/-- Transform-lock pass body (`springChain.py:228-242`): the eleven lock
assignments made for each preview bone. -/
def lockStep : Bone → Bone := fun b =>
  { b with
    lock_rotation_0 := true, lock_rotation_1 := true, lock_rotation_2 := true
    lock_rotations_4d := true, lock_rotation_w := true
    lock_location_0 := true, lock_location_1 := true, lock_location_2 := true
    lock_scale_0 := true, lock_scale_1 := true, lock_scale_2 := true }

/-- Apply the transform-lock pass to the preview bones. -/
def lockPhase (s : Skeleton) (names : List String) : Skeleton :=
  names.foldl (fun sk b => pointUpdate sk b lockStep) s

/-- Id-property creation/update: `rna_idprop_ui_prop_get(pb, name, create=True)`
followed by assigning value and ranges replaces an existing entry in place or
appends a new one. -/
def insertProp : List (String × UIProp) → String → UIProp → List (String × UIProp)
  | [], pname, p => [(pname, p)]
  | q :: rest, pname, p => if q.1 = pname then (pname, p) :: rest else q :: insertProp rest pname p

/-- Build a knob with `soft_min = min` and `soft_max = max`, as every property
in the source does. -/
def mkProp (defaultVal mini maxi : ℚ) : UIProp :=
  { value := defaultVal, min := mini, max := maxi, soft_min := mini, soft_max := maxi }

/-- Create or update one custom property on one pose bone. -/
def setPropOp (s : Skeleton) (boneName pname : String) (p : UIProp) : Skeleton :=
  pointUpdate s boneName (fun b => { b with props := insertProp b.props pname p })

/-- The shared-property table (`springChain.py:260-271`), entries
`[name, min, max, default]`. -/
def unifyPropTable : List (String × ℚ × ℚ × ℚ) :=
  [("speed", 0, 100, 1),
   ("damping", 0, 1, 1/2),
   ("gravity", 0, 100, 0),
   ("stiffness_x", 0, 1, 0),
   ("stiffness_y", 0, 1, 0),
   ("stiffness_z", 0, 1, 0),
   ("dist_threshold", 0, 10, 1),
   ("fast_factor", 0, 10, 3),
   ("reset_on_frame", -99000, 99000, 1)]

/-- The nine global spring knobs created on the prop bone when
`unify_spring_props` is set (`springChain.py:259-276`). -/
def unifyGlobalProps (s : Skeleton) (propBone : String) : Skeleton :=
  unifyPropTable.foldl (fun sk q => setPropOp sk propBone q.1 (mkProp q.2.2.2 q.2.1 q.2.2.1)) s

/-- `PoseBone.path_from_id()` of the host. -/
def pathFromId (boneName : String) : String := "pose.bones[\"" ++ boneName ++ "\"]"

/-- The three spring parameters that receive per-instance factors
(`springChain.py:295-299`). -/
def tweakableProps : List String := ["speed", "gravity", "damping"]

/-- Driver placed on one spring-constraint parameter in unify mode
(`springChain.py:311-337`): `var * factor` for tweakable parameters (with the
factor variable reading the per-target factor knob), plain `var` otherwise;
`var` always reads the global knob on the prop bone. -/
def springParamDriver (propBone targetName pname : String) : Driver :=
  if pname ∈ tweakableProps then
    { dtype := "SCRIPTED", expression := "var * factor"
      vars := [("var", pathFromId propBone ++ "[\"" ++ pname ++ "\"]"),
               ("factor", pathFromId targetName ++ "[\"" ++ pname ++ "_factor\"]")] }
  else
    { dtype := "SCRIPTED", expression := "var"
      vars := [("var", pathFromId propBone ++ "[\"" ++ pname ++ "\"]")] }

/-- The SPRING constraint created on each mch-target bone
(`springChain.py:288-290`), with its parameter drivers when unify mode is on. -/
def springCon (propBone : String) (unify : Bool) (sourceName targetName : String) : Constraint :=
  { ctype := "SPRING", name := none, subtarget := sourceName
    target_space := none, owner_space := none, influenceDriver := none
    paramDrivers :=
      if unify then unifyPropTable.map (fun q => (q.1, springParamDriver propBone targetName q.1)) else [] }

/-- Per-instance factor knob (`springChain.py:301-308`): value 1, range
`[0, 100]` with soft range equal to the hard range. -/
def factorProp : UIProp := mkProp 1 0 100

/-- Body of the spring-constraint loop for one `(source, target)` pair
(`springChain.py:285-337`): create the SPRING constraint, and in unify mode
additionally the three factor knobs (the parameter drivers are stored with the
constraint). -/
def springStep (propBone : String) (unify : Bool) (p : String × String) : Bone → Bone := fun b =>
  let b1 := { b with constraints := b.constraints ++ [springCon propBone unify p.1 p.2] }
  if unify then
    { b1 with props :=
        insertProp (insertProp (insertProp b1.props ("speed_factor") factorProp)
          ("gravity_factor") factorProp) ("damping_factor") factorProp }
  else b1

/-- The spring-constraint loop over `zip(mch_source, mch_target)`. -/
def springConstraintPhase (s : Skeleton) (propBone : String) (unify : Bool) (ms mt : List String) : Skeleton :=
  (ms.zip mt).foldl (fun sk p => pointUpdate sk p.2 (springStep propBone unify p)) s

/-- The local-space COPY_ROTATION constraint injected on each mch-source bone
(`springChain.py:340-347`). -/
def copyRotationCon (ctrlName : String) : Constraint :=
  { ctype := "COPY_ROTATION", name := none, subtarget := ctrlName
    target_space := some ("LOCAL"), owner_space := some ("LOCAL")
    influenceDriver := none, paramDrivers := [] }

/-- Body of the spring-control-constraint loop for one `(source, ctrl)` pair. -/
def copyRotStep (p : String × String) : Bone → Bone := fun b =>
  { b with constraints := b.constraints ++ [copyRotationCon p.2] }

/-- The spring-control loop over `zip(mch_source, control_bones)`. -/
def copyRotationPhase (s : Skeleton) (ms ctrl : List String) : Skeleton :=
  (ms.zip ctrl).foldl (fun sk p => pointUpdate sk p.1 (copyRotStep p)) s

/-- The "Follow Manual" COPY_TRANSFORMS constraint on a deform bone
(`springChain.py:353-358`): subtarget is the same-index control bone; no
driver is attached to its influence. -/
def followManualCon (ctrlName : String) : Constraint :=
  { ctype := "COPY_TRANSFORMS", name := some ("Follow Manual"), subtarget := ctrlName
    target_space := none, owner_space := none, influenceDriver := none, paramDrivers := [] }

/-- The influence driver of the "Follow Spring" constraint
(`springChain.py:366-374`): scripted expression `follow_spring` with one
variable reading the `follow_spring` knob on the prop bone. -/
def followSpringDriver (propBone : String) : Driver :=
  { dtype := "SCRIPTED", expression := "follow_spring"
    vars := [("follow_spring", pathFromId propBone ++ "[\"follow_spring\"]")] }

/-- The "Follow Spring" COPY_TRANSFORMS constraint on a deform bone
(`springChain.py:360-374`): subtarget is the same-index mch-target bone, with
the `follow_spring` influence driver. -/
def followSpringCon (propBone springName : String) : Constraint :=
  { ctype := "COPY_TRANSFORMS", name := some ("Follow Spring"), subtarget := springName
    target_space := none, owner_space := none
    influenceDriver := some (followSpringDriver propBone), paramDrivers := [] }

/-- Body of the deform-constraint loop for one `(deform, (target, ctrl))`
triple (`springChain.py:349-374`). -/
def deformStep (propBone : String) (p : String × String × String) : Bone → Bone := fun b =>
  { b with constraints := b.constraints ++ [followManualCon p.2.2, followSpringCon propBone p.2.1] }

/-- The deform-constraint loop over
`zip(deform_bones, mch_target, control_bones)`. -/
def deformConstraintPhase (s : Skeleton) (propBone : String) (deform mt ctrl : List String) : Skeleton :=
  (deform.zip (mt.zip ctrl)).foldl (fun sk p => pointUpdate sk p.1 (deformStep propBone p)) s

/-- The undriven "Follow Manual" COPY_TRANSFORMS constraint on a preview bone
(`springChain.py:377-385`): subtarget is the same-index deform bone. -/
def previewFollowCon (deformName : String) : Constraint :=
  { ctype := "COPY_TRANSFORMS", name := some ("Follow Manual"), subtarget := deformName
    target_space := none, owner_space := none, influenceDriver := none, paramDrivers := [] }

/-- Body of the preview-constraint loop for one `(deform, preview)` pair. -/
def previewStep (p : String × String) : Bone → Bone := fun b =>
  { b with constraints := b.constraints ++ [previewFollowCon p.1] }

/-- The preview-constraint loop over `zip(deform_bones, preview_bones)`. -/
def previewConstraintPhase (s : Skeleton) (deform pv : List String) : Skeleton :=
  (deform.zip pv).foldl (fun sk p => pointUpdate sk p.2 (previewStep p)) s

/-! ### Lookup table and UI script emission -/

/-- Python dict assignment `lookup[key] = value`: replace in place or append. -/
def dictInsert : List (String × String) → String → String → List (String × String)
  | [], k, v => [(k, v)]
  | q :: rest, k, v => if q.1 = k then (k, v) :: rest else q :: dictInsert rest k v

/-- Python dict lookup. -/
def dictFind : List (String × String) → String → Option String
  | [], _ => none
  | q :: rest, k => if q.1 = k then some q.2 else dictFind rest k

/-- The lookup table built at `springChain.py:387-391`: for each of the
control and preview lists in that order, insert `zip(list, mch_target)`. -/
def buildLookup (ctrl pv mt : List String) : List (String × String) :=
  (pv.zip mt).foldl (fun d p => dictInsert d p.1 p.2)
    ((ctrl.zip mt).foldl (fun d p => dictInsert d p.1 p.2) [])

/-- The lookup table of a generation pass, keyed on control and preview bone
names. -/
def lookupForUI (org : List String) : List (String × String) :=
  buildLookup (controlBoneNames org) (previewBoneNames org) (mchTargetNames org)

/-- `gen_tabs(depth)` (`springChain.py:26-27`): `4 * depth` spaces. -/
def genTabs (depth : Nat) : String := String.mk (List.replicate (4 * depth) ' ')

/-- The spring-parameter names and UI labels of the
`expose_spring_props` template (`springChain.py:32-42`), in template order. -/
def springPropLabels : List (String × String) :=
  [("speed", "Speed"),
   ("damping", "Damping"),
   ("gravity", "Gravity"),
   ("stiffness_x", "Stiffness X"),
   ("stiffness_y", "Stiffness Y"),
   ("stiffness_z", "Stiffness Z"),
   ("dist_threshold", "Distance threshold"),
   ("fast_factor", "Fast factor"),
   ("reset_on_frame", "Reset on frame")]

/-- One line of the `expose_spring_props` template: `layout.prop` on the given
data path for parameter `q.1` with label `q.2`, the parameter name wrapped in
the `l`/`r` brackets (`["`/`"]` when escaping, empty otherwise). -/
def propLine (dataPath l r : String) (q : String × String) : String :=
  genTabs 1 ++ "layout.prop(" ++ dataPath ++ ", \x27" ++ l ++ q.1 ++ r ++
    "\x27, text=\"" ++ q.2 ++ "\")\n"

/-- `get_spring_prop_str` (`springChain.py:30-48`): one `layout.prop` line per
spring parameter on the given data path, in the template's order; note that
the source formats with `indent=gen_tabs(1)` regardless of the `indent`
argument, and brackets the parameter name in `["..."]` only when `escape` is
set. -/
def getSpringPropStr (dataPath : String) (indent : Nat) (escape : Bool) : String :=
  let l := if escape then "[\"" else ""
  let r := if escape then "\"]" else ""
  "\n" ++ propLine dataPath l r ("speed", "Speed")
    ++ propLine dataPath l r ("damping", "Damping")
    ++ propLine dataPath l r ("gravity", "Gravity")
    ++ propLine dataPath l r ("stiffness_x", "Stiffness X")
    ++ propLine dataPath l r ("stiffness_y", "Stiffness Y")
    ++ propLine dataPath l r ("stiffness_z", "Stiffness Z")
    ++ propLine dataPath l r ("dist_threshold", "Distance threshold")
    ++ propLine dataPath l r ("fast_factor", "Fast factor")
    ++ propLine dataPath l r ("reset_on_frame", "Reset on frame")

/-- `get_props_display` (`springChain.py:51-90`): the `indi` template when
`individual` is set (per-bone spring parameters, data path
`pose_bones[spring].constraints["Spring"i]` — reproduced literally from the
source, stray `i` included), otherwise the `shared` template (global knobs
plus the three per-bone factor knobs). -/
def getPropsDisplay (individual : Bool) (indent : Nat) : String :=
  let t := genTabs indent
  if individual then
    "\n" ++ t ++ "for b in control_bones + preview_bones:\n"
      ++ t ++ "if is_selected([b, ]):\n"
      ++ t ++ "    spring = lookup[b]\n"
      ++ t ++ "    name = spring[len(\"MCH-\"):-len(\"_target\")]\n"
      ++ t ++ "    layout.label(text=\"Spring properties for \x27%s\x27\" % name)\n"
      ++ t ++ "    " ++ getSpringPropStr ("pose_bones[spring].constraints[\"Spring\"i]") (indent + 1) false ++ "\n"
  else
    "\n" ++ t ++ getSpringPropStr ("pose_bones[prop_bone]") (indent + 1) true ++ "\n"
      ++ t ++ "for b in control_bones + preview_bones:\n"
      ++ t ++ "    if is_selected([b, ]):\n"
      ++ t ++ "        spring = lookup[b]\n"
      ++ t ++ "        name = spring[len(\"MCH-\"):-len(\"_target\")]\n"
      ++ t ++ "        layout.label(text=\"Spring properties for \x27%s\x27\" % name)\n"
      ++ t ++ "        layout.prop(pose_bones[spring], \x27[\"speed_factor\"]\x27, text=\"Speed factor\")\n"
      ++ t ++ "        layout.prop(pose_bones[spring], \x27[\"gravity_factor\"]\x27, text=\"Gravity factor\")\n"
      ++ t ++ "        layout.prop(pose_bones[spring], \x27[\"damping_factor\"]\x27, text=\"Damping factor\")\n"

/-- Python `repr` of a string (single quotes). -/
def pyQuote (s : String) : String := "\x27" ++ s ++ "\x27"

/-- Python `str` of a list of strings. -/
def pyStrList (xs : List String) : String :=
  "[" ++ String.intercalate (", ") (xs.map pyQuote) ++ "]"

/-- Python `str` of a string-to-string dict (insertion order). -/
def pyStrDict (d : List (String × String)) : String :=
  "\x7b" ++ String.intercalate (", ") (d.map (fun p => pyQuote p.1 ++ ": " ++ pyQuote p.2)) ++ "\x7d"

/-- The part of the `main_script` template (`springChain.py:96-106`) that
precedes the `{properties_display}` substitution, ending with the four-space
indentation in front of it. -/
def mainScriptHeader (propBone : String) (lookupTable : List (String × String))
    (ctrlList pvList springList : List String) : String :=
  "\nprop_bone = \"" ++ propBone ++ "\"\n"
    ++ "lookup = " ++ pyStrDict lookupTable ++ "\n"
    ++ "control_bones = " ++ pyStrList ctrlList ++ "\n"
    ++ "preview_bones = " ++ pyStrList pvList ++ "\n"
    ++ "spring_bones = " ++ pyStrList springList ++ "\n"
    ++ "\nif is_selected(control_bones + preview_bones):\n"
    ++ "    layout.prop(pose_bones[prop_bone], \x27[\"follow_spring\"]\x27, text=\"Follow spring\")\n"
    ++ "    "

/-- `get_main_script` (`springChain.py:93-115`): the header followed by the
properties display block. -/
def getMainScript (individual : Bool) (propBone : String) (lookupTable : List (String × String))
    (ctrlList pvList springList : List String) : String :=
  (mainScriptHeader propBone lookupTable ctrlList pvList springList
    ++ getPropsDisplay individual 1) ++ "\n"

/-! ### The generator -/

/-- The structural-edit phase of `Rig.generate` (`springChain.py:135-206`):
duplication, control parenting, deform/preview detachment, mechanical
cross-parenting.  The roll-alignment pass (`springChain.py:211-215`) changes
only edit-bone rolls and is modelled separately by `alignBoneRoll` below. -/
def editPhases (s : Skeleton) (org : List String) (originalParent : String) : Skeleton :=
  let s1 := createAllCopies s org
  let s2 := controlParenting s1 originalParent (controlBoneNames org)
  let s3 := clearParents s2 (deformBoneNames org ++ previewBoneNames org)
  crossParent s3 (mchSourceNames org) (mchTargetNames org)

/-- The runtime-configuration phase of `Rig.generate`
(`springChain.py:220-385`): widgets/`hide_select`, transform locks,
properties, and the four constraint loops.  `propBone` is `org_bones[0]`
(`springChain.py:247`). -/
def posePhases (s : Skeleton) (org : List String) (unify : Bool) : Skeleton :=
  let propBone := org.headI
  let s5 := hideSelectPhase s (previewBoneNames org)
  let s6 := lockPhase s5 (previewBoneNames org)
  let s7 := setPropOp s6 propBone ("follow_spring") (mkProp 1 0 1)
  let s8 := if unify then unifyGlobalProps s7 propBone else s7
  let s9 := springConstraintPhase s8 propBone unify (mchSourceNames org) (mchTargetNames org)
  let s10 := copyRotationPhase s9 (mchSourceNames org) (controlBoneNames org)
  let s11 := deformConstraintPhase s10 propBone (deformBoneNames org) (mchTargetNames org) (controlBoneNames org)
  previewConstraintPhase s11 (deformBoneNames org) (previewBoneNames org)

/-- `Rig.generate` (`springChain.py:131-401`): the two phases plus the
returned UI script `[out]`, built from the lookup table and the bone lists
with `individual = not unify_spring_props`. -/
def generate (s : Skeleton) (org : List String) (originalParent : String) (params : Params) :
    Skeleton × List String :=
  (posePhases (editPhases s org originalParent) org params.unify_spring_props,
   [getMainScript (!params.unify_spring_props) org.headI (lookupForUI org)
     (controlBoneNames org) (previewBoneNames org) (mchTargetNames org)])

/-- The two failure modes of `Rig.__init__`: the validated chain-length
precondition (`MetarigError`), and the unhandled `AttributeError` raised by
`edit_bones[bone].parent.name` when the root bone has no parent. -/
inductive RigInitError where
  | metarigError (msg : String)
  | attributeError
deriving DecidableEq

/-- `Rig.__init__` (`springChain.py:119-129`): `org_bones` is the root bone
followed by its connected children (the host's `connected_children_names`
query result is passed in); fewer than three bones raises `MetarigError`
before anything else; then the original parent's name is read, raising
`AttributeError` if the root has no parent.  No skeleton mutation occurs. -/
def rigInit (s : Skeleton) (boneName : String) (connectedChildren : List String) :
    Except RigInitError (List String × String) :=
  let orgBones := boneName :: connectedChildren
  if orgBones.length < 3 then
    Except.error (RigInitError.metarigError ("Need at least three bones for Spring-chain"))
  else
    match (s boneName).parent with
    | none => Except.error RigInitError.attributeError
    | some parentName => Except.ok (orgBones, parentName)

/-- Construction followed by generation.  On an `__init__` exception the
caller's skeleton is returned untouched (exception semantics: nothing was
mutated before the raise). -/
def rigRun (s : Skeleton) (boneName : String) (connectedChildren : List String) (params : Params) :
    Skeleton × Except RigInitError (List String) :=
  match rigInit s boneName connectedChildren with
  | Except.error e => (s, Except.error e)
  | Except.ok (org, originalParent) =>
    let r := generate s org originalParent params
    (r.1, Except.ok r.2)

/-! ### Bone-roll alignment (`align_bone_roll`, `springChain.py:416-458`)

The geometric part operates on bone frames.  A bone's length-axis direction
(`y_axis`) is fixed by its head and tail and independent of the roll; its
`x_axis` is the roll-zero x axis rotated about the length axis by the roll.
The host's vector/matrix operations (`mathutils`) are modelled over `ℝ`.
-/

/-- A 3-vector over the reals. -/
structure Vec3 where
  x : ℝ
  y : ℝ
  z : ℝ

/-- Componentwise sum. -/
noncomputable def addV (a b : Vec3) : Vec3 := ⟨a.x + b.x, a.y + b.y, a.z + b.z⟩

/-- Scalar multiple. -/
noncomputable def smulV (r : ℝ) (v : Vec3) : Vec3 := ⟨r * v.x, r * v.y, r * v.z⟩

/-- Dot product (`mathutils` `Vector * Vector`). -/
noncomputable def dotV (a b : Vec3) : ℝ := a.x * b.x + a.y * b.y + a.z * b.z

/-- Cross product (`Vector.cross`). -/
noncomputable def crossV (a b : Vec3) : Vec3 :=
  ⟨a.y * b.z - a.z * b.y, a.z * b.x - a.x * b.z, a.x * b.y - a.y * b.x⟩

/-- Euclidean norm. -/
noncomputable def normV (v : Vec3) : ℝ := Real.sqrt (dotV v v)

/-- `Vector.normalize`: scale to unit length; the zero vector stays zero. -/
noncomputable def normalizeV (v : Vec3) : Vec3 :=
  if normV v = 0 then v else smulV (1 / normV v) v

/-- `Vector.angle`: inverse cosine of the normalized dot product. -/
noncomputable def vAngle (a b : Vec3) : ℝ :=
  Real.arccos (dotV a b / (normV a * normV b))

/-- `Matrix.Rotation(angle, 3, axis)` applied to a vector (Rodrigues
rotation about `axis` by `angle`). -/
noncomputable def rotate (angle : ℝ) (axis v : Vec3) : Vec3 :=
  addV (addV (smulV (Real.cos angle) v) (smulV (Real.sin angle) (crossV axis v)))
    (smulV ((1 - Real.cos angle) * dotV axis v) axis)

/-- An edit bone's orientation state: length-axis direction, roll-zero
x axis, and current roll. -/
structure EBone where
  yAxis : Vec3
  xAxis0 : Vec3
  roll : ℝ

/-- The bone's `x_axis` as the host reports it: the roll-zero x axis rotated
about the length axis by the current roll (the claimed property is
insensitive to the host's sign convention). -/
noncomputable def xAxisOf (b : EBone) : Vec3 :=
  addV (smulV (Real.cos b.roll) b.xAxis0) (smulV (Real.sin b.roll) (crossV b.yAxis b.xAxis0))

/-- The clamp at `springChain.py:443-446`: `if dot > 1.0 ... elif dot < -1.0`. -/
noncomputable def clampDot (d : ℝ) : ℝ := if d > 1 then 1 else if d < -1 then -1 else d

/-- The roll computed by `align_bone_roll` for a bone with roll-zero frame
`(yA, x0)` against reference frame `b2`, mirroring `springChain.py:416-458`:
the roll is first zeroed (so `x1` is the roll-zero x axis), the candidate roll
is the clamped-arccos angle between the reference x axis and the rotated
x axis, the roll is assigned and the bone's x axis re-read for the direction
check, and the roll is negated when the check dot falls below `0.9999`. -/
noncomputable def alignRollValue (yA x0 : Vec3) (b2 : EBone) : ℝ :=
  let b1z : EBone := ⟨yA, x0, 0⟩
  let y1 := b1z.yAxis
  let x1 := xAxisOf b1z
  let y2 := b2.yAxis
  let x2 := xAxisOf b2
  let axis := normalizeV (crossV y1 y2)
  let angle := vAngle y1 y2
  let x3 := rotate angle axis x1
  let d := clampDot (dotV x2 x3)
  let roll := Real.arccos d
  let x3r := rotate angle axis (xAxisOf ⟨yA, x0, roll⟩)
  let check := dotV x2 x3r
  if check < 9999 / 10000 then -roll else roll

/-- `align_bone_roll(obj, bone1, bone2)`: the only mutation is the assignment
of `bone1`'s roll; the assigned value depends on `bone1` only through its
roll-zero frame because the function zeroes the roll before reading axes. -/
noncomputable def alignBoneRoll (b1 b2 : EBone) : EBone :=
  { b1 with roll := alignRollValue b1.yAxis b1.xAxis0 b2 }

/-! ## Infrastructure lemmas -/

lemma pointUpdate_apply_eq (s : Skeleton) (n : String) (f : Bone → Bone) :
    pointUpdate s n f n = f (s n) := by simp [pointUpdate]

lemma pointUpdate_apply_ne (s : Skeleton) (n : String) (f : Bone → Bone) (x : String)
    (h : x ≠ n) : pointUpdate s n f x = s x := by simp [pointUpdate, h]

/-- A fold of single-bone updates, each touching the bone named by `key`. -/
def keyFold {α : Type} (key : α → String) (f : α → Bone → Bone) (l : List α) (s : Skeleton) :
    Skeleton :=
  l.foldl (fun sk a => pointUpdate sk (key a) (f a)) s

lemma keyFold_preserve {α : Type} (key : α → String) (f : α → Bone → Bone) :
    ∀ (l : List α) (s : Skeleton) (x : String), x ∉ l.map key → keyFold key f l s x = s x := by
  intro l
  induction l with
  | nil => intro s x _; rfl
  | cons a l ih =>
    intro s x hx
    simp only [List.map_cons, List.mem_cons, not_or] at hx
    show keyFold key f l (pointUpdate s (key a) (f a)) x = s x
    rw [ih _ _ hx.2, pointUpdate_apply_ne _ _ _ _ hx.1]

lemma keyFold_get {α : Type} (key : α → String) (f : α → Bone → Bone) :
    ∀ (l : List α) (s : Skeleton) (a : α), a ∈ l → (l.map key).Nodup →
      keyFold key f l s (key a) = f a (s (key a)) := by
  intro l
  induction l with
  | nil => intro s a ha _; cases ha
  | cons a0 l ih =>
    intro s a ha hnd
    simp only [List.map_cons, List.nodup_cons] at hnd
    rcases List.mem_cons.mp ha with h | h
    · subst h
      show keyFold key f l (pointUpdate s (key a) (f a)) (key a) = _
      rw [keyFold_preserve key f l _ _ hnd.1, pointUpdate_apply_eq]
    · show keyFold key f l (pointUpdate s (key a0) (f a0)) (key a) = _
      rw [ih _ _ h hnd.2]
      have hne : key a ≠ key a0 := fun he => hnd.1 (he ▸ List.mem_map_of_mem key h)
      rw [pointUpdate_apply_ne _ _ _ _ hne]

lemma keyFold_proj {α β : Type} (key : α → String) (f : α → Bone → Bone) (proj : Bone → β)
    (hf : ∀ a b, proj (f a b) = proj b) :
    ∀ (l : List α) (s : Skeleton) (x : String), proj (keyFold key f l s x) = proj (s x) := by
  intro l
  induction l with
  | nil => intro s x; rfl
  | cons a l ih =>
    intro s x
    show proj (keyFold key f l (pointUpdate s (key a) (f a)) x) = _
    rw [ih]
    by_cases hx : x = key a
    · simp [pointUpdate, hx, hf]
    · simp [pointUpdate, hx]

lemma keyFold_keepTrue {α : Type} (key : α → String) (f : α → Bone → Bone) (proj : Bone → Bool)
    (hkeep : ∀ a b, proj b = true → proj (f a b) = true) :
    ∀ (l : List α) (s : Skeleton) (x : String), proj (s x) = true →
      proj (keyFold key f l s x) = true := by
  intro l
  induction l with
  | nil => intro s x hx; exact hx
  | cons a l ih =>
    intro s x hx
    show proj (keyFold key f l (pointUpdate s (key a) (f a)) x) = true
    apply ih
    by_cases h : x = key a
    · simp only [pointUpdate, if_pos h]
      exact hkeep _ _ hx
    · simpa [pointUpdate, h] using hx

lemma keyFold_setTrue {α : Type} (key : α → String) (f : α → Bone → Bone) (proj : Bone → Bool)
    (hset : ∀ a b, proj (f a b) = true) :
    ∀ (l : List α) (s : Skeleton) (a : α), a ∈ l →
      proj (keyFold key f l s (key a)) = true := by
  intro l
  induction l with
  | nil => intro s a ha; cases ha
  | cons a0 l ih =>
    intro s a ha
    rcases List.mem_cons.mp ha with h | h
    · subst h
      show proj (keyFold key f l (pointUpdate s (key a) (f a)) (key a)) = true
      apply keyFold_keepTrue key f proj (fun a b _ => hset a b)
      rw [pointUpdate_apply_eq]
      exact hset _ _
    · exact ih _ _ h

/-! Equations putting each pose-phase loop in `keyFold` form. -/

lemma hideSelectPhase_eq (s : Skeleton) (names : List String) :
    hideSelectPhase s names = keyFold (fun b => b) (fun _ => hideSelectStep) names s := rfl

lemma lockPhase_eq (s : Skeleton) (names : List String) :
    lockPhase s names = keyFold (fun b => b) (fun _ => lockStep) names s := rfl

lemma clearParents_eq (s : Skeleton) (names : List String) :
    clearParents s names =
      keyFold (fun b => b) (fun _ bn => { bn with parent := none, attach := Attach.direct }) names s := rfl

lemma springConstraintPhase_eq (s : Skeleton) (pb : String) (u : Bool) (ms mt : List String) :
    springConstraintPhase s pb u ms mt = keyFold Prod.snd (springStep pb u) (ms.zip mt) s := rfl

lemma copyRotationPhase_eq (s : Skeleton) (ms ctrl : List String) :
    copyRotationPhase s ms ctrl = keyFold Prod.fst copyRotStep (ms.zip ctrl) s := rfl

lemma deformConstraintPhase_eq (s : Skeleton) (pb : String) (deform mt ctrl : List String) :
    deformConstraintPhase s pb deform mt ctrl =
      keyFold Prod.fst (deformStep pb) (deform.zip (mt.zip ctrl)) s := rfl

lemma previewConstraintPhase_eq (s : Skeleton) (deform pv : List String) :
    previewConstraintPhase s deform pv = keyFold Prod.snd previewStep (deform.zip pv) s := rfl

/-! Lengths of the derived name lists. -/

@[simp] lemma length_deformBoneNames (org : List String) :
    (deformBoneNames org).length = org.length := by simp [deformBoneNames]

@[simp] lemma length_mchSourceNames (org : List String) :
    (mchSourceNames org).length = org.length := by simp [mchSourceNames]

@[simp] lemma length_mchTargetNames (org : List String) :
    (mchTargetNames org).length = org.length := by simp [mchTargetNames]

@[simp] lemma length_controlBoneNames (org : List String) :
    (controlBoneNames org).length = org.length := by simp [controlBoneNames]

@[simp] lemma length_previewBoneNames (org : List String) :
    (previewBoneNames org).length = org.length := by simp [previewBoneNames]

/-! ### Duplication-pass lemmas -/

lemma copyChain_preserve :
    ∀ (srcs dsts : List String) (s : Skeleton) (x : String), x ∉ dsts →
      copyChain s srcs dsts x = s x := by
  intro srcs
  induction srcs with
  | nil => intro dsts s x _; cases dsts <;> rfl
  | cons a srcs ih =>
    intro dsts s x hx
    cases dsts with
    | nil => rfl
    | cons b dsts =>
      simp only [List.mem_cons, not_or] at hx
      show copyChain (copyBoneOp s a b) srcs dsts x = s x
      rw [ih _ _ _ hx.2]
      simp [copyBoneOp, hx.1]

lemma copyChain_fresh :
    ∀ (srcs dsts : List String) (s : Skeleton) (x : String), x ∈ dsts →
      dsts.length ≤ srcs.length →
      ∃ b : Bone, copyChain s srcs dsts x = freshCopy b := by
  intro srcs
  induction srcs with
  | nil =>
    intro dsts s x hx hlen
    cases dsts with
    | nil => cases hx
    | cons b dsts => simp at hlen
  | cons a srcs ih =>
    intro dsts s x hx hlen
    cases dsts with
    | nil => cases hx
    | cons b dsts =>
      show ∃ bn, copyChain (copyBoneOp s a b) srcs dsts x = freshCopy bn
      by_cases hmem : x ∈ dsts
      · exact ih _ _ _ hmem (by simpa using Nat.le_of_succ_le_succ hlen)
      · have hxb : x = b := by
          rcases List.mem_cons.mp hx with h | h
          · exact h
          · exact absurd h hmem
        subst hxb
        rw [copyChain_preserve _ _ _ _ hmem]
        exact ⟨s a, by simp [copyBoneOp]⟩

lemma createAllCopies_eq (s : Skeleton) (org : List String) :
    createAllCopies s org =
      copyChain (copyChain (copyChain (copyChain (copyChain s org (deformBoneNames org))
        org (mchSourceNames org)) org (mchTargetNames org)) org (controlBoneNames org))
        org (previewBoneNames org) := rfl

lemma createAllCopies_preserve (org : List String) (s : Skeleton) (x : String)
    (hx : x ∉ allDerivedNames org) : createAllCopies s org x = s x := by
  have h1 : x ∉ deformBoneNames org := fun h => hx (by simp [allDerivedNames, h])
  have h2 : x ∉ mchSourceNames org := fun h => hx (by simp [allDerivedNames, h])
  have h3 : x ∉ mchTargetNames org := fun h => hx (by simp [allDerivedNames, h])
  have h4 : x ∉ controlBoneNames org := fun h => hx (by simp [allDerivedNames, h])
  have h5 : x ∉ previewBoneNames org := fun h => hx (by simp [allDerivedNames, h])
  rw [createAllCopies_eq, copyChain_preserve _ _ _ _ h5, copyChain_preserve _ _ _ _ h4,
    copyChain_preserve _ _ _ _ h3, copyChain_preserve _ _ _ _ h2, copyChain_preserve _ _ _ _ h1]

lemma createAllCopies_fresh (org : List String) (s : Skeleton) (x : String)
    (hx : x ∈ allDerivedNames org) : ∃ b : Bone, createAllCopies s org x = freshCopy b := by
  rw [createAllCopies_eq]
  by_cases h5 : x ∈ previewBoneNames org
  · exact copyChain_fresh _ _ _ _ h5 (by simp)
  rw [copyChain_preserve _ _ _ _ h5]
  by_cases h4 : x ∈ controlBoneNames org
  · exact copyChain_fresh _ _ _ _ h4 (by simp)
  rw [copyChain_preserve _ _ _ _ h4]
  by_cases h3 : x ∈ mchTargetNames org
  · exact copyChain_fresh _ _ _ _ h3 (by simp)
  rw [copyChain_preserve _ _ _ _ h3]
  by_cases h2 : x ∈ mchSourceNames org
  · exact copyChain_fresh _ _ _ _ h2 (by simp)
  rw [copyChain_preserve _ _ _ _ h2]
  by_cases h1 : x ∈ deformBoneNames org
  · exact copyChain_fresh _ _ _ _ h1 (by simp)
  · exfalso
    simp only [allDerivedNames, List.mem_append] at hx
    simp [h1, h2, h3, h4, h5] at hx

/-! ### Parenting-pass lemmas -/

lemma chainConnect_preserve :
    ∀ (bs : List String) (s : Skeleton) (lastName x : String), x ∉ bs →
      chainConnect s lastName bs x = s x := by
  intro bs
  induction bs with
  | nil => intro s lastName x _; rfl
  | cons b bs ih =>
    intro s lastName x hx
    simp only [List.mem_cons, not_or] at hx
    show chainConnect (setParentOp s b lastName Attach.connected) b bs x = s x
    rw [ih _ _ _ hx.2]
    simp [setParentOp, pointUpdate, hx.1]

lemma chainConnect_mem :
    ∀ (bs : List String) (s : Skeleton) (lastName : String), (lastName :: bs).Nodup →
      ∀ p ∈ bs.zip (lastName :: bs),
        ((chainConnect s lastName bs) p.1).parent = some p.2 ∧
        ((chainConnect s lastName bs) p.1).attach = Attach.connected := by
  intro bs
  induction bs with
  | nil => intro s lastName _ p hp; cases hp
  | cons b bs ih =>
    intro s lastName hnd p hp
    have hnd' : (b :: bs).Nodup := (List.nodup_cons.mp hnd).2
    rcases List.mem_cons.mp hp with h | h
    · subst h
      have hb : b ∉ bs := (List.nodup_cons.mp hnd').1
      have hstep : (chainConnect s lastName (b :: bs)) b =
          (setParentOp s b lastName Attach.connected) b := by
        show (chainConnect (setParentOp s b lastName Attach.connected) b bs) b = _
        exact chainConnect_preserve _ _ _ _ hb
      rw [hstep]
      constructor <;> simp [setParentOp, pointUpdate]
    · exact ih _ _ hnd' p h

lemma controlParenting_preserve (ctrl : List String) (s : Skeleton) (op x : String)
    (hx : x ∉ ctrl) : controlParenting s op ctrl x = s x := by
  cases ctrl with
  | nil => rfl
  | cons c cs =>
    simp only [List.mem_cons, not_or] at hx
    show chainConnect (setParentOp s c op Attach.direct) c cs x = s x
    rw [chainConnect_preserve _ _ _ _ hx.2]
    simp [setParentOp, pointUpdate, hx.1]

lemma controlParenting_head (cs : List String) (s : Skeleton) (op c : String)
    (hnd : (c :: cs).Nodup) :
    ((controlParenting s op (c :: cs)) c).parent = some op ∧
    ((controlParenting s op (c :: cs)) c).attach = Attach.direct := by
  have hc : c ∉ cs := (List.nodup_cons.mp hnd).1
  have hstep : (controlParenting s op (c :: cs)) c = (setParentOp s c op Attach.direct) c := by
    show (chainConnect (setParentOp s c op Attach.direct) c cs) c = _
    exact chainConnect_preserve _ _ _ _ hc
  rw [hstep]
  constructor <;> simp [setParentOp, pointUpdate]

lemma controlParenting_tail (ctrl : List String) (s : Skeleton) (op : String)
    (hnd : ctrl.Nodup) :
    ∀ p ∈ ctrl.tail.zip ctrl,
      ((controlParenting s op ctrl) p.1).parent = some p.2 ∧
      ((controlParenting s op ctrl) p.1).attach = Attach.connected := by
  cases ctrl with
  | nil => intro p hp; cases hp
  | cons c cs =>
    intro p hp
    exact chainConnect_mem cs (setParentOp s c op Attach.direct) c hnd p hp

lemma crossParent_preserve :
    ∀ (ms mt : List String) (s : Skeleton) (x : String), x ∉ mt → x ∉ ms.tail →
      crossParent s ms mt x = s x := by
  intro ms
  induction ms with
  | nil => intro mt s x _ _; cases mt <;> rfl
  | cons s1 ms ih =>
    intro mt s x hxt hxs
    cases mt with
    | nil => cases ms <;> rfl
    | cons t ts =>
      simp only [List.mem_cons, not_or] at hxt
      cases ms with
      | nil =>
        show setParentOp s t s1 Attach.offset x = s x
        simp [setParentOp, pointUpdate, hxt.1]
      | cons s2 ss =>
        simp only [List.tail_cons, List.mem_cons, not_or] at hxs
        show crossParent
          (setParentOp (setParentOp s t s1 Attach.offset) s2 t Attach.offset) (s2 :: ss) ts x = s x
        rw [ih _ _ _ hxt.2 (by simpa using hxs.2)]
        simp [setParentOp, pointUpdate, hxs.1, hxt.1]

lemma crossParent_target :
    ∀ (ms mt : List String) (s : Skeleton), ms.Nodup → mt.Nodup →
      (∀ y, y ∈ ms → y ∈ mt → False) →
      ∀ p ∈ mt.zip ms,
        ((crossParent s ms mt) p.1).parent = some p.2 ∧
        ((crossParent s ms mt) p.1).attach = Attach.offset := by
  intro ms
  induction ms with
  | nil => intro mt s _ _ _ p hp; simp at hp
  | cons s1 ms ih =>
    intro mt s hms hmt hdisj p hp
    cases mt with
    | nil => cases hp
    | cons t ts =>
      have ht_ms : t ∉ s1 :: ms := fun h => hdisj t h (List.mem_cons_self t ts)
      simp only [List.mem_cons, not_or] at ht_ms
      rcases List.mem_cons.mp hp with h | h
      · subst h
        cases ms with
        | nil =>
          have hstep : (crossParent s [s1] (t :: ts)) t = (setParentOp s t s1 Attach.offset) t := rfl
          rw [hstep]
          constructor <;> simp [setParentOp, pointUpdate]
        | cons s2 ss =>
          have ht_ts : t ∉ ts := (List.nodup_cons.mp hmt).1
          have hts2 : t ≠ s2 := fun h => ht_ms.2 (h ▸ List.mem_cons_self _ _)
          have ht_ss : t ∉ ss := fun h => ht_ms.2 (List.mem_cons_of_mem _ h)
          have hstep : (crossParent s (s1 :: s2 :: ss) (t :: ts)) t =
              (setParentOp (setParentOp s t s1 Attach.offset) s2 t Attach.offset) t := by
            show (crossParent
              (setParentOp (setParentOp s t s1 Attach.offset) s2 t Attach.offset) (s2 :: ss) ts) t = _
            exact crossParent_preserve _ _ _ _ ht_ts (by simpa using ht_ss)
          rw [hstep]
          constructor <;> simp [setParentOp, pointUpdate, hts2]
      · cases ms with
        | nil => simp at h
        | cons s2 ss =>
          have hrec :
              ∀ q ∈ ts.zip (s2 :: ss),
                ((crossParent
                  (setParentOp (setParentOp s t s1 Attach.offset) s2 t Attach.offset)
                  (s2 :: ss) ts) q.1).parent = some q.2 ∧
                ((crossParent
                  (setParentOp (setParentOp s t s1 Attach.offset) s2 t Attach.offset)
                  (s2 :: ss) ts) q.1).attach = Attach.offset :=
            ih ts _ (List.nodup_cons.mp hms).2 (List.nodup_cons.mp hmt).2
              (fun y hy hyt => hdisj y (List.mem_cons_of_mem _ hy) (List.mem_cons_of_mem _ hyt))
          exact hrec p h

lemma crossParent_source :
    ∀ (ms mt : List String) (s : Skeleton), ms.Nodup → mt.Nodup →
      (∀ y, y ∈ ms → y ∈ mt → False) →
      ∀ p ∈ ms.tail.zip mt,
        ((crossParent s ms mt) p.1).parent = some p.2 ∧
        ((crossParent s ms mt) p.1).attach = Attach.offset := by
  intro ms
  induction ms with
  | nil => intro mt s _ _ _ p hp; cases hp
  | cons s1 ms ih =>
    intro mt s hms hmt hdisj p hp
    cases mt with
    | nil => simp at hp
    | cons t ts =>
      cases ms with
      | nil => cases hp
      | cons s2 ss =>
        rcases List.mem_cons.mp hp with h | h
        · subst h
          have hs2_ss : s2 ∉ ss := (List.nodup_cons.mp (List.nodup_cons.mp hms).2).1
          have hs2_ts : s2 ∉ ts := fun hh =>
            hdisj s2 (List.mem_cons_of_mem _ (List.mem_cons_self s2 ss)) (List.mem_cons_of_mem _ hh)
          have hstep : (crossParent s (s1 :: s2 :: ss) (t :: ts)) s2 =
              (setParentOp (setParentOp s t s1 Attach.offset) s2 t Attach.offset) s2 := by
            show (crossParent
              (setParentOp (setParentOp s t s1 Attach.offset) s2 t Attach.offset) (s2 :: ss) ts) s2 = _
            exact crossParent_preserve _ _ _ _ hs2_ts (by simpa using hs2_ss)
          rw [hstep]
          constructor <;> simp [setParentOp, pointUpdate]
        · have hrec :
              ∀ q ∈ (s2 :: ss).tail.zip ts,
                ((crossParent
                  (setParentOp (setParentOp s t s1 Attach.offset) s2 t Attach.offset)
                  (s2 :: ss) ts) q.1).parent = some q.2 ∧
                ((crossParent
                  (setParentOp (setParentOp s t s1 Attach.offset) s2 t Attach.offset)
                  (s2 :: ss) ts) q.1).attach = Attach.offset :=
            ih ts _ (List.nodup_cons.mp hms).2 (List.nodup_cons.mp hmt).2
              (fun y hy hyt => hdisj y (List.mem_cons_of_mem _ hy) (List.mem_cons_of_mem _ hyt))
          exact hrec p h

/-! ### Projection preservation through the parenting passes

The parenting passes only update `parent` and `attach`; every other field of
every bone is preserved. -/

lemma setParentOp_proj {β : Type} (proj : Bone → β)
    (hp : ∀ (b : Bone) (pa : String) (a : Attach),
      proj { b with parent := some pa, attach := a } = proj b)
    (s : Skeleton) (child par : String) (a : Attach) (x : String) :
    proj ((setParentOp s child par a) x) = proj (s x) := by
  unfold setParentOp pointUpdate
  dsimp only
  split
  · exact hp _ _ _
  · rfl

lemma chainConnect_proj {β : Type} (proj : Bone → β)
    (hp : ∀ (b : Bone) (pa : String) (a : Attach),
      proj { b with parent := some pa, attach := a } = proj b) :
    ∀ (bs : List String) (s : Skeleton) (lastName x : String),
      proj ((chainConnect s lastName bs) x) = proj (s x) := by
  intro bs
  induction bs with
  | nil => intro s lastName x; rfl
  | cons b bs ih =>
    intro s lastName x
    show proj ((chainConnect (setParentOp s b lastName Attach.connected) b bs) x) = _
    rw [ih]
    exact setParentOp_proj proj hp _ _ _ _ _

lemma controlParenting_proj {β : Type} (proj : Bone → β)
    (hp : ∀ (b : Bone) (pa : String) (a : Attach),
      proj { b with parent := some pa, attach := a } = proj b) :
    ∀ (ctrl : List String) (s : Skeleton) (op x : String),
      proj ((controlParenting s op ctrl) x) = proj (s x) := by
  intro ctrl s op x
  cases ctrl with
  | nil => rfl
  | cons c cs =>
    show proj ((chainConnect (setParentOp s c op Attach.direct) c cs) x) = _
    rw [chainConnect_proj proj hp]
    exact setParentOp_proj proj hp _ _ _ _ _

lemma crossParent_proj {β : Type} (proj : Bone → β)
    (hp : ∀ (b : Bone) (pa : String) (a : Attach),
      proj { b with parent := some pa, attach := a } = proj b) :
    ∀ (ms mt : List String) (s : Skeleton) (x : String),
      proj ((crossParent s ms mt) x) = proj (s x) := by
  intro ms
  induction ms with
  | nil => intro mt s x; cases mt <;> rfl
  | cons s1 ms ih =>
    intro mt s x
    cases mt with
    | nil => cases ms <;> rfl
    | cons t ts =>
      cases ms with
      | nil =>
        show proj ((setParentOp s t s1 Attach.offset) x) = _
        exact setParentOp_proj proj hp _ _ _ _ _
      | cons s2 ss =>
        show proj ((crossParent
          (setParentOp (setParentOp s t s1 Attach.offset) s2 t Attach.offset) (s2 :: ss) ts) x) = _
        rw [ih]
        exact (setParentOp_proj proj hp _ _ _ _ _).trans (setParentOp_proj proj hp _ _ _ _ _)

lemma clearParents_proj {β : Type} (proj : Bone → β)
    (hp : ∀ b : Bone, proj { b with parent := none, attach := Attach.direct } = proj b)
    (names : List String) (s : Skeleton) (x : String) :
    proj ((clearParents s names) x) = proj (s x) := by
  rw [clearParents_eq]
  exact keyFold_proj _ _ proj (fun _ b => hp b) names s x

/-! ### Projections through the pose passes -/

/-- The edit-side state of a bone: parent link and attach mode. -/
def editState (b : Bone) : Option String × Attach := (b.parent, b.attach)

/-- The display/lock flags of a bone, as one tuple list. -/
def flagState (b : Bone) : List Bool :=
  [b.hide_select,
   b.lock_location_0, b.lock_location_1, b.lock_location_2,
   b.lock_rotation_0, b.lock_rotation_1, b.lock_rotation_2,
   b.lock_rotations_4d, b.lock_rotation_w,
   b.lock_scale_0, b.lock_scale_1, b.lock_scale_2]

lemma unifyGlobalProps_eq (s : Skeleton) (pb : String) :
    unifyGlobalProps s pb =
      keyFold (fun _ => pb)
        (fun q b => { b with props := insertProp b.props q.1 (mkProp q.2.2.2 q.2.1 q.2.2.1) })
        unifyPropTable s := rfl

lemma springStep_editState (pb : String) (u : Bool) (p : String × String) (b : Bone) :
    editState (springStep pb u p b) = editState b := by
  unfold springStep
  dsimp only
  split <;> rfl

lemma springStep_flagState (pb : String) (u : Bool) (p : String × String) (b : Bone) :
    flagState (springStep pb u p b) = flagState b := by
  unfold springStep
  dsimp only
  split <;> rfl

lemma hideSelectPhase_editState (s : Skeleton) (names : List String) (x : String) :
    editState ((hideSelectPhase s names) x) = editState (s x) := by
  rw [hideSelectPhase_eq]
  exact keyFold_proj (fun b => b) (fun _ => hideSelectStep) editState (fun _ _ => rfl) _ _ _

lemma lockPhase_editState (s : Skeleton) (names : List String) (x : String) :
    editState ((lockPhase s names) x) = editState (s x) := by
  rw [lockPhase_eq]
  exact keyFold_proj (fun b => b) (fun _ => lockStep) editState (fun _ _ => rfl) _ _ _

lemma setPropOp_editState (s : Skeleton) (bn pn : String) (p : UIProp) (x : String) :
    editState ((setPropOp s bn pn p) x) = editState (s x) := by
  unfold setPropOp pointUpdate
  dsimp only
  split <;> rfl

lemma unifyGlobalProps_editState (s : Skeleton) (pb x : String) :
    editState ((unifyGlobalProps s pb) x) = editState (s x) := by
  rw [unifyGlobalProps_eq]
  exact keyFold_proj (fun _ => pb)
    (fun (q : String × ℚ × ℚ × ℚ) b =>
      { b with props := insertProp b.props q.1 (mkProp q.2.2.2 q.2.1 q.2.2.1) })
    editState (fun _ _ => rfl) _ _ _

lemma springConstraintPhase_editState (s : Skeleton) (pb : String) (u : Bool)
    (ms mt : List String) (x : String) :
    editState ((springConstraintPhase s pb u ms mt) x) = editState (s x) := by
  rw [springConstraintPhase_eq]
  exact keyFold_proj _ _ _ (fun a b => springStep_editState pb u a b) _ _ _

lemma copyRotationPhase_editState (s : Skeleton) (ms ctrl : List String) (x : String) :
    editState ((copyRotationPhase s ms ctrl) x) = editState (s x) := by
  rw [copyRotationPhase_eq]
  exact keyFold_proj Prod.fst copyRotStep editState (fun _ _ => rfl) _ _ _

lemma deformConstraintPhase_editState (s : Skeleton) (pb : String) (deform mt ctrl : List String)
    (x : String) :
    editState ((deformConstraintPhase s pb deform mt ctrl) x) = editState (s x) := by
  rw [deformConstraintPhase_eq]
  exact keyFold_proj Prod.fst (deformStep pb) editState (fun _ _ => rfl) _ _ _

lemma previewConstraintPhase_editState (s : Skeleton) (deform pv : List String) (x : String) :
    editState ((previewConstraintPhase s deform pv) x) = editState (s x) := by
  rw [previewConstraintPhase_eq]
  exact keyFold_proj Prod.snd previewStep editState (fun _ _ => rfl) _ _ _

/-- The whole runtime-configuration phase leaves every parent link untouched. -/
lemma posePhases_editState (s : Skeleton) (org : List String) (unify : Bool) (x : String) :
    editState ((posePhases s org unify) x) = editState (s x) := by
  unfold posePhases
  rw [previewConstraintPhase_editState, deformConstraintPhase_editState,
    copyRotationPhase_editState, springConstraintPhase_editState]
  cases unify with
  | false =>
    simp only [Bool.false_eq_true, if_false]
    rw [setPropOp_editState, lockPhase_editState, hideSelectPhase_editState]
  | true =>
    simp only [if_true]
    rw [unifyGlobalProps_editState, setPropOp_editState, lockPhase_editState,
      hideSelectPhase_editState]

/-! ### Projections through the structural-edit passes -/

lemma editPhases_constraints (s : Skeleton) (org : List String) (op : String) (x : String) :
    ((editPhases s org op) x).constraints = ((createAllCopies s org) x).constraints := by
  unfold editPhases
  rw [crossParent_proj (fun b => b.constraints) (fun _ _ _ => rfl),
    clearParents_proj (fun b => b.constraints) (fun _ => rfl),
    controlParenting_proj (fun b => b.constraints) (fun _ _ _ => rfl)]

lemma editPhases_props (s : Skeleton) (org : List String) (op : String) (x : String) :
    ((editPhases s org op) x).props = ((createAllCopies s org) x).props := by
  unfold editPhases
  rw [crossParent_proj (fun b => b.props) (fun _ _ _ => rfl),
    clearParents_proj (fun b => b.props) (fun _ => rfl),
    controlParenting_proj (fun b => b.props) (fun _ _ _ => rfl)]

lemma editPhases_flagState (s : Skeleton) (org : List String) (op : String) (x : String) :
    flagState ((editPhases s org op) x) = flagState ((createAllCopies s org) x) := by
  unfold editPhases
  rw [crossParent_proj flagState (fun _ _ _ => rfl),
    clearParents_proj flagState (fun _ => rfl),
    controlParenting_proj flagState (fun _ _ _ => rfl)]

/-! ### Extracting chain facts from a global no-duplicates hypothesis -/

/-- The full name universe of one generation pass: the original chain followed
by every derived name.  The host guarantees all bone names are distinct
(Blender renames on collision); the claim theorems take this as a hypothesis. -/
def allBoneNames (org : List String) : List String := org ++ allDerivedNames org

lemma disj_of_sublist {A B l : List String} (hnd : l.Nodup) (hsub : List.Sublist (A ++ B) l) :
    ∀ y ∈ A, y ∉ B :=
  fun y hy hyB => (List.disjoint_of_nodup_append (hnd.sublist hsub)) hy hyB

lemma nodup_of_sublist {A l : List String} (hnd : l.Nodup) (hsub : List.Sublist A l) : A.Nodup :=
  hnd.sublist hsub

/-- Per-chain uniqueness and disjointness facts extracted from the global
no-duplicate-names hypothesis. -/
structure NameFacts (org : List String) : Prop where
  nd_org : org.Nodup
  nd_d : (deformBoneNames org).Nodup
  nd_ms : (mchSourceNames org).Nodup
  nd_mt : (mchTargetNames org).Nodup
  nd_c : (controlBoneNames org).Nodup
  nd_p : (previewBoneNames org).Nodup
  d_ms : (deformBoneNames org).Disjoint (mchSourceNames org)
  d_mt : (deformBoneNames org).Disjoint (mchTargetNames org)
  d_c : (deformBoneNames org).Disjoint (controlBoneNames org)
  d_p : (deformBoneNames org).Disjoint (previewBoneNames org)
  ms_mt : (mchSourceNames org).Disjoint (mchTargetNames org)
  ms_c : (mchSourceNames org).Disjoint (controlBoneNames org)
  ms_p : (mchSourceNames org).Disjoint (previewBoneNames org)
  mt_c : (mchTargetNames org).Disjoint (controlBoneNames org)
  mt_p : (mchTargetNames org).Disjoint (previewBoneNames org)
  c_p : (controlBoneNames org).Disjoint (previewBoneNames org)
  org_d : org.Disjoint (deformBoneNames org)
  org_ms : org.Disjoint (mchSourceNames org)
  org_mt : org.Disjoint (mchTargetNames org)
  org_c : org.Disjoint (controlBoneNames org)
  org_p : org.Disjoint (previewBoneNames org)

lemma nameFacts (org : List String) (hnd : (allBoneNames org).Nodup) : NameFacts org := by
  simp only [allBoneNames, allDerivedNames, List.nodup_append, List.disjoint_append_right,
    List.disjoint_append_left] at hnd
  obtain ⟨h1,
    ⟨⟨⟨⟨hbnd, hcnd, hbc⟩, hdnd, hbd, hcd⟩, hend, ⟨hbe, hce⟩, hde⟩, hfnd, ⟨⟨hbf, hcf⟩, hdf⟩, hef⟩,
    ⟨⟨⟨hab, hac⟩, had⟩, hae⟩, haf⟩ := hnd
  exact ⟨h1, hbnd, hcnd, hdnd, hend, hfnd, hbc, hbd, hbe, hbf, hcd, hce, hcf, hde, hdf, hef,
    hab, hac, had, hae, haf⟩

/-! ## Claim C2 -/

/-- The cross-parenting property claimed by C2, over the final skeleton of a
generation pass: every mechanical target bone is attached OFFSET under the
same-index mechanical source bone, and every mechanical source bone except the
first is attached OFFSET under the previous index's target bone.  Since the
two name lists have equal length and (under the uniqueness hypothesis) no
duplicates, membership in the zips ranges exactly over the index pairs
`(mch_target[i], mch_source[i])` and `(mch_source[i+1], mch_target[i])`. -/
def C2Statement (s : Skeleton) (org : List String) (op : String) (params : Params) : Prop :=
  (∀ p ∈ (mchTargetNames org).zip (mchSourceNames org),
    (((generate s org op params).1) p.1).parent = some p.2 ∧
    (((generate s org op params).1) p.1).attach = Attach.offset) ∧
  (∀ p ∈ ((mchSourceNames org).tail).zip (mchTargetNames org),
    (((generate s org op params).1) p.1).parent = some p.2 ∧
    (((generate s org op params).1) p.1).attach = Attach.offset)

/-- C2: for every source chain of length N ≥ 3, after generation the
mechanical chains are cross-parented in the staggered pattern:
`mch_target[i].parent = mch_source[i]` (offset-preserving attach) for every i,
and `mch_source[i+1].parent = mch_target[i]` for i < N-1 (also offset). -/
theorem C2_staggered_cross_parenting (s : Skeleton) (org : List String) (op : String)
    (params : Params) (hN : 3 ≤ org.length) (hnd : (allBoneNames org).Nodup) :
    C2Statement s org op params := by
  have nf := nameFacts org hnd
  have hgen : (generate s org op params).1 =
      posePhases (editPhases s org op) org params.unify_spring_props := rfl
  have hedit : ∀ x : String,
      editState ((generate s org op params).1 x) = editState ((editPhases s org op) x) := by
    intro x; rw [hgen]; exact posePhases_editState _ _ _ _
  have heq : editPhases s org op =
      crossParent
        (clearParents (controlParenting (createAllCopies s org) op (controlBoneNames org))
          (deformBoneNames org ++ previewBoneNames org))
        (mchSourceNames org) (mchTargetNames org) := rfl
  constructor
  · intro p hp
    have h2 := crossParent_target (mchSourceNames org) (mchTargetNames org)
      (clearParents (controlParenting (createAllCopies s org) op (controlBoneNames org))
        (deformBoneNames org ++ previewBoneNames org))
      nf.nd_ms nf.nd_mt (fun y hy hyt => nf.ms_mt hy hyt) p hp
    have he := hedit p.1
    rw [heq] at he
    exact ⟨(congrArg Prod.fst he).trans h2.1, (congrArg Prod.snd he).trans h2.2⟩
  · intro p hp
    have h2 := crossParent_source (mchSourceNames org) (mchTargetNames org)
      (clearParents (controlParenting (createAllCopies s org) op (controlBoneNames org))
        (deformBoneNames org ++ previewBoneNames org))
      nf.nd_ms nf.nd_mt (fun y hy hyt => nf.ms_mt hy hyt) p hp
    have he := hedit p.1
    rw [heq] at he
    exact ⟨(congrArg Prod.fst he).trans h2.1, (congrArg Prod.snd he).trans h2.2⟩

/-- A concrete armature for witnesses: every bone initially fresh. -/
def witnessSkel : Skeleton := fun _ => emptyBone

theorem C2_staggered_cross_parenting_witness :
    (3 ≤ (["ORG-A", "ORG-B", "ORG-C"] : List String).length) ∧
    (allBoneNames ["ORG-A", "ORG-B", "ORG-C"]).Nodup ∧
    C2Statement witnessSkel ["ORG-A", "ORG-B", "ORG-C"] ("root") ⟨true⟩ :=
  ⟨by decide, by decide,
    C2_staggered_cross_parenting witnessSkel ["ORG-A", "ORG-B", "ORG-C"] ("root") ⟨true⟩
      (by decide) (by decide)⟩

/-! ## Claim C6 -/

/-- The control-chain parenting property claimed by C6, over the skeleton
produced by construction-plus-generation: the first control bone's parent is
the captured original parent `op`, and every later control bone is attached
CONNECTED to its predecessor.  Membership in `ctrl.tail.zip ctrl` ranges
exactly over the index pairs `(control[i], control[i-1])` for `1 ≤ i < N`. -/
def C6Statement (s : Skeleton) (bone : String) (children : List String) (params : Params)
    (op : String) : Prop :=
  (((rigRun s bone children params).1 ((controlBoneNames (bone :: children)).headI)).parent =
    some op) ∧
  (∀ p ∈ ((controlBoneNames (bone :: children)).tail).zip (controlBoneNames (bone :: children)),
    ((rigRun s bone children params).1 p.1).parent = some p.2 ∧
    ((rigRun s bone children params).1 p.1).attach = Attach.connected)

/-- C6: for every source chain of length N ≥ 3 whose root bone's parent is
`op` (captured by `__init__` before generation), after generation `control[0]`
is parented to `op`, and `control[i]` is attached CONNECTED to `control[i-1]`
for 1 ≤ i < N. -/
theorem C6_control_chain_parenting (s : Skeleton) (bone : String) (children : List String)
    (params : Params) (op : String) (hN : 3 ≤ (bone :: children).length)
    (hpar : (s bone).parent = some op) (hnd : (allBoneNames (bone :: children)).Nodup) :
    C6Statement s bone children params op := by
  have nf := nameFacts (bone :: children) hnd
  have hrun : (rigRun s bone children params).1 = (generate s (bone :: children) op params).1 := by
    unfold rigRun rigInit
    rw [if_neg (by omega : ¬((bone :: children).length < 3)), hpar]
  have hedit : ∀ x : String,
      editState ((generate s (bone :: children) op params).1 x) =
      editState ((editPhases s (bone :: children) op) x) := by
    intro x
    exact posePhases_editState _ _ _ _
  -- a control bone's edit state survives the deform/preview detachment and the
  -- mechanical cross-parenting
  have hctrl : ∀ c, c ∈ controlBoneNames (bone :: children) →
      (editPhases s (bone :: children) op) c =
      (controlParenting (createAllCopies s (bone :: children)) op
        (controlBoneNames (bone :: children))) c := by
    intro c hc
    have hcmt : c ∉ mchTargetNames (bone :: children) := fun h => nf.mt_c h hc
    have hcms : c ∉ (mchSourceNames (bone :: children)).tail := fun h =>
      nf.ms_c (List.mem_of_mem_tail h) hc
    have hcd : c ∉ deformBoneNames (bone :: children) := fun h => nf.d_c h hc
    have hcp : c ∉ previewBoneNames (bone :: children) := fun h => nf.c_p hc h
    show (crossParent
      (clearParents (controlParenting (createAllCopies s (bone :: children)) op
        (controlBoneNames (bone :: children)))
        (deformBoneNames (bone :: children) ++ previewBoneNames (bone :: children)))
      (mchSourceNames (bone :: children)) (mchTargetNames (bone :: children))) c = _
    rw [crossParent_preserve _ _ _ _ hcmt hcms, clearParents_eq,
      keyFold_preserve _ _ _ _ _ (by simpa using And.intro hcd hcp)]
  have hhead : (controlBoneNames (bone :: children)).headI = strip_org bone := rfl
  constructor
  · have hmem : (controlBoneNames (bone :: children)).headI ∈
        controlBoneNames (bone :: children) := by
      rw [hhead]; exact List.mem_cons_self _ _
    have he := hedit ((controlBoneNames (bone :: children)).headI)
    rw [hctrl _ hmem] at he
    have hh := controlParenting_head (children.map strip_org)
      (createAllCopies s (bone :: children)) op (strip_org bone) nf.nd_c
    rw [hrun]
    exact (congrArg Prod.fst he).trans hh.1
  · intro p hp
    have hmem : p.1 ∈ controlBoneNames (bone :: children) :=
      List.mem_of_mem_tail (List.of_mem_zip hp).1
    have he := hedit p.1
    rw [hctrl _ hmem] at he
    have ht := controlParenting_tail (controlBoneNames (bone :: children))
      (createAllCopies s (bone :: children)) op nf.nd_c p hp
    rw [hrun]
    exact ⟨(congrArg Prod.fst he).trans ht.1, (congrArg Prod.snd he).trans ht.2⟩

/-- A concrete armature whose root bone `ORG-A` has external parent `root`. -/
def witnessSkelRooted : Skeleton :=
  fun n => if n = "ORG-A" then { emptyBone with parent := some ("root") } else emptyBone

theorem C6_control_chain_parenting_witness :
    (3 ≤ (("ORG-A" : String) :: ["ORG-B", "ORG-C"]).length) ∧
    (witnessSkelRooted "ORG-A").parent = some ("root") ∧
    (allBoneNames ["ORG-A", "ORG-B", "ORG-C"]).Nodup ∧
    C6Statement witnessSkelRooted "ORG-A" ["ORG-B", "ORG-C"] ⟨true⟩ ("root") :=
  ⟨by decide, by decide, by decide,
    C6_control_chain_parenting witnessSkelRooted "ORG-A" ["ORG-B", "ORG-C"] ⟨true⟩ ("root")
      (by decide) (by decide) (by decide)⟩

/-! ## Claim C3 -/

/-- C3: for every source chain with fewer than 3 bones, constructing the rig
raises the fatal configuration error (`MetarigError`) and performs zero
mutations: the returned skeleton is exactly the input skeleton (the exception
is raised before any mutating statement runs), and no generation output is
produced. -/
theorem C3_short_chain_error_no_mutation (s : Skeleton) (bone : String)
    (children : List String) (params : Params) (hshort : (bone :: children).length < 3) :
    rigRun s bone children params =
      (s, Except.error (RigInitError.metarigError ("Need at least three bones for Spring-chain"))) := by
  unfold rigRun rigInit
  rw [if_pos hshort]

theorem C3_short_chain_error_no_mutation_witness :
    ((("ORG-A" : String) :: ["ORG-B"]).length < 3) ∧
    rigRun witnessSkel "ORG-A" ["ORG-B"] ⟨true⟩ =
      (witnessSkel,
        Except.error (RigInitError.metarigError ("Need at least three bones for Spring-chain"))) :=
  ⟨by decide, C3_short_chain_error_no_mutation witnessSkel "ORG-A" ["ORG-B"] ⟨true⟩ (by decide)⟩

/-! ## Claim C9 -/

/-- C9: constructing the rig requires the first source bone to have a parent.
For any source chain of length ≥ 3 whose root bone has no parent, construction
fails with the unhandled attribute access (`.parent.name` on `None`) rather
than with the documented configuration error, before any mutation occurs: the
returned skeleton is exactly the input skeleton. -/
theorem C9_missing_root_parent_attribute_error (s : Skeleton) (bone : String)
    (children : List String) (params : Params) (hN : 3 ≤ (bone :: children).length)
    (hpar : (s bone).parent = none) :
    rigRun s bone children params = (s, Except.error RigInitError.attributeError) := by
  unfold rigRun rigInit
  rw [if_neg (by omega : ¬((bone :: children).length < 3)), hpar]

theorem C9_missing_root_parent_attribute_error_witness :
    (3 ≤ (("ORG-A" : String) :: ["ORG-B", "ORG-C"]).length) ∧
    (witnessSkel "ORG-A").parent = none ∧
    rigRun witnessSkel "ORG-A" ["ORG-B", "ORG-C"] ⟨true⟩ =
      (witnessSkel, Except.error RigInitError.attributeError) :=
  ⟨by decide, by decide,
    C9_missing_root_parent_attribute_error witnessSkel "ORG-A" ["ORG-B", "ORG-C"] ⟨true⟩
      (by decide) (by decide)⟩

/-! ## Claim C8 -/

/-- C8: `align_bone_roll` is idempotent and deterministic in the two bones'
frames.  Running the alignment twice yields exactly the same bone state (hence
the same roll value, in particular within the 1e-5 tolerance), because the
function's first mutation resets the roll to zero, so the computed roll
depends only on the bone's roll-zero frame, which alignment never changes;
and the result is independent of the aligned bone's incoming roll. -/
theorem C8_align_bone_roll_idempotent (b1 b2 : EBone) :
    alignBoneRoll (alignBoneRoll b1 b2) b2 = alignBoneRoll b1 b2 ∧
    |(alignBoneRoll (alignBoneRoll b1 b2) b2).roll - (alignBoneRoll b1 b2).roll| ≤ 1 / 100000 ∧
    (∀ r : ℝ, alignBoneRoll { b1 with roll := r } b2 = alignBoneRoll b1 b2) := by
  refine ⟨rfl, ?_, fun r => rfl⟩
  have h : (alignBoneRoll (alignBoneRoll b1 b2) b2).roll = (alignBoneRoll b1 b2).roll := rfl
  rw [h, sub_self, abs_zero]
  norm_num

/-! ### Field projections through the pose passes -/

lemma hideSelectPhase_constraints (s : Skeleton) (names : List String) (x : String) :
    ((hideSelectPhase s names) x).constraints = (s x).constraints := by
  rw [hideSelectPhase_eq]
  exact keyFold_proj (fun b => b) (fun _ => hideSelectStep) (fun b => b.constraints)
    (fun _ _ => rfl) _ _ _

lemma lockPhase_constraints (s : Skeleton) (names : List String) (x : String) :
    ((lockPhase s names) x).constraints = (s x).constraints := by
  rw [lockPhase_eq]
  exact keyFold_proj (fun b => b) (fun _ => lockStep) (fun b => b.constraints)
    (fun _ _ => rfl) _ _ _

lemma setPropOp_constraints (s : Skeleton) (bn pn : String) (p : UIProp) (x : String) :
    ((setPropOp s bn pn p) x).constraints = (s x).constraints := by
  unfold setPropOp pointUpdate
  dsimp only
  split <;> rfl

lemma unifyGlobalProps_constraints (s : Skeleton) (pb x : String) :
    ((unifyGlobalProps s pb) x).constraints = (s x).constraints := by
  rw [unifyGlobalProps_eq]
  exact keyFold_proj (fun _ => pb)
    (fun (q : String × ℚ × ℚ × ℚ) b =>
      { b with props := insertProp b.props q.1 (mkProp q.2.2.2 q.2.1 q.2.2.1) })
    (fun b => b.constraints) (fun _ _ => rfl) _ _ _

lemma hideSelectPhase_props (s : Skeleton) (names : List String) (x : String) :
    ((hideSelectPhase s names) x).props = (s x).props := by
  rw [hideSelectPhase_eq]
  exact keyFold_proj (fun b => b) (fun _ => hideSelectStep) (fun b => b.props)
    (fun _ _ => rfl) _ _ _

lemma lockPhase_props (s : Skeleton) (names : List String) (x : String) :
    ((lockPhase s names) x).props = (s x).props := by
  rw [lockPhase_eq]
  exact keyFold_proj (fun b => b) (fun _ => lockStep) (fun b => b.props)
    (fun _ _ => rfl) _ _ _

lemma copyRotationPhase_props (s : Skeleton) (ms ctrl : List String) (x : String) :
    ((copyRotationPhase s ms ctrl) x).props = (s x).props := by
  rw [copyRotationPhase_eq]
  exact keyFold_proj Prod.fst copyRotStep (fun b => b.props) (fun _ _ => rfl) _ _ _

lemma deformConstraintPhase_props (s : Skeleton) (pb : String) (deform mt ctrl : List String)
    (x : String) :
    ((deformConstraintPhase s pb deform mt ctrl) x).props = (s x).props := by
  rw [deformConstraintPhase_eq]
  exact keyFold_proj Prod.fst (deformStep pb) (fun b => b.props) (fun _ _ => rfl) _ _ _

lemma previewConstraintPhase_props (s : Skeleton) (deform pv : List String) (x : String) :
    ((previewConstraintPhase s deform pv) x).props = (s x).props := by
  rw [previewConstraintPhase_eq]
  exact keyFold_proj Prod.snd previewStep (fun b => b.props) (fun _ _ => rfl) _ _ _

lemma springStep_props_false (pb : String) (p : String × String) (b : Bone) :
    (springStep pb false p b).props = b.props := rfl

lemma springConstraintPhase_props_false (s : Skeleton) (pb : String) (ms mt : List String)
    (x : String) :
    ((springConstraintPhase s pb false ms mt) x).props = (s x).props := by
  rw [springConstraintPhase_eq]
  exact keyFold_proj Prod.snd (springStep pb false) (fun b => b.props)
    (fun a b => springStep_props_false pb a b) _ _ _

lemma setPropOp_flagState (s : Skeleton) (bn pn : String) (p : UIProp) (x : String) :
    flagState ((setPropOp s bn pn p) x) = flagState (s x) := by
  unfold setPropOp pointUpdate
  dsimp only
  split <;> rfl

lemma unifyGlobalProps_flagState (s : Skeleton) (pb x : String) :
    flagState ((unifyGlobalProps s pb) x) = flagState (s x) := by
  rw [unifyGlobalProps_eq]
  exact keyFold_proj (fun _ => pb)
    (fun (q : String × ℚ × ℚ × ℚ) b =>
      { b with props := insertProp b.props q.1 (mkProp q.2.2.2 q.2.1 q.2.2.1) })
    flagState (fun _ _ => rfl) _ _ _

lemma springConstraintPhase_flagState (s : Skeleton) (pb : String) (u : Bool)
    (ms mt : List String) (x : String) :
    flagState ((springConstraintPhase s pb u ms mt) x) = flagState (s x) := by
  rw [springConstraintPhase_eq]
  exact keyFold_proj Prod.snd (springStep pb u) flagState
    (fun a b => springStep_flagState pb u a b) _ _ _

lemma copyRotationPhase_flagState (s : Skeleton) (ms ctrl : List String) (x : String) :
    flagState ((copyRotationPhase s ms ctrl) x) = flagState (s x) := by
  rw [copyRotationPhase_eq]
  exact keyFold_proj Prod.fst copyRotStep flagState (fun _ _ => rfl) _ _ _

lemma deformConstraintPhase_flagState (s : Skeleton) (pb : String) (deform mt ctrl : List String)
    (x : String) :
    flagState ((deformConstraintPhase s pb deform mt ctrl) x) = flagState (s x) := by
  rw [deformConstraintPhase_eq]
  exact keyFold_proj Prod.fst (deformStep pb) flagState (fun _ _ => rfl) _ _ _

lemma previewConstraintPhase_flagState (s : Skeleton) (deform pv : List String) (x : String) :
    flagState ((previewConstraintPhase s deform pv) x) = flagState (s x) := by
  rw [previewConstraintPhase_eq]
  exact keyFold_proj Prod.snd previewStep flagState (fun _ _ => rfl) _ _ _

/-! ### Key lists of the zipped loops -/

lemma keys_spring (org : List String) :
    ((mchSourceNames org).zip (mchTargetNames org)).map Prod.snd = mchTargetNames org := by
  apply List.map_snd_zip
  simp

lemma keys_copyRot (org : List String) :
    ((mchSourceNames org).zip (controlBoneNames org)).map Prod.fst = mchSourceNames org := by
  apply List.map_fst_zip
  simp

lemma keys_deform (org : List String) :
    ((deformBoneNames org).zip ((mchTargetNames org).zip (controlBoneNames org))).map Prod.fst =
      deformBoneNames org := by
  apply List.map_fst_zip
  simp

lemma keys_preview (org : List String) :
    ((deformBoneNames org).zip (previewBoneNames org)).map Prod.snd = previewBoneNames org := by
  apply List.map_snd_zip
  simp

/-! ### Same-bone fold computations -/

lemma keyFold_const_key {α : Type} (pb : String) (f : α → Bone → Bone) :
    ∀ (l : List α) (s : Skeleton),
      (keyFold (fun _ => pb) f l s) pb = l.foldl (fun b a => f a b) (s pb) := by
  intro l
  induction l with
  | nil => intro s; rfl
  | cons a l ih =>
    intro s
    show (keyFold (fun _ => pb) f l (pointUpdate s pb (f a))) pb = _
    rw [ih, pointUpdate_apply_eq, List.foldl_cons]

lemma foldl_unify_props :
    ∀ (l : List (String × ℚ × ℚ × ℚ)) (b0 : Bone),
      (l.foldl (fun b q =>
        { b with props := insertProp b.props q.1 (mkProp q.2.2.2 q.2.1 q.2.2.1) }) b0).props =
      l.foldl (fun ps q => insertProp ps q.1 (mkProp q.2.2.2 q.2.1 q.2.2.1)) b0.props := by
  intro l
  induction l with
  | nil => intro b0; rfl
  | cons a l ih =>
    intro b0
    rw [List.foldl_cons, List.foldl_cons, ih]

/-! ### Decomposition of the runtime-configuration phase -/

lemma posePhases_eq (s : Skeleton) (org : List String) (u : Bool) :
    posePhases s org u =
      previewConstraintPhase
        (deformConstraintPhase
          (copyRotationPhase
            (springConstraintPhase
              (if u then
                unifyGlobalProps
                  (setPropOp (lockPhase (hideSelectPhase s (previewBoneNames org))
                    (previewBoneNames org)) org.headI ("follow_spring") (mkProp 1 0 1))
                  org.headI
              else
                setPropOp (lockPhase (hideSelectPhase s (previewBoneNames org))
                  (previewBoneNames org)) org.headI ("follow_spring") (mkProp 1 0 1))
              org.headI u (mchSourceNames org) (mchTargetNames org))
            (mchSourceNames org) (controlBoneNames org))
          org.headI (deformBoneNames org) (mchTargetNames org) (controlBoneNames org))
        (deformBoneNames org) (previewBoneNames org) := rfl

lemma generate_fst (s : Skeleton) (org : List String) (op : String) (params : Params) :
    (generate s org op params).1 =
      posePhases (editPhases s org op) org params.unify_spring_props := rfl

lemma ite_unify_constraints (E : Skeleton) (pb : String) (u : Bool) (x : String) :
    ((if u then unifyGlobalProps E pb else E) x).constraints = (E x).constraints := by
  cases u <;> simp [unifyGlobalProps_constraints]

lemma ite_unify_flagState (E : Skeleton) (pb : String) (u : Bool) (x : String) :
    flagState ((if u then unifyGlobalProps E pb else E) x) = flagState (E x) := by
  cases u <;> simp [unifyGlobalProps_flagState]

/-! ## Claim C1 -/

/-- A Boolean check that a constraint's influence is driven by the scripted
expression `e` with a variable named `follow_spring` reading `path`. -/
def drivenBy (c : Constraint) (e : String) (path : String) : Bool :=
  match c.influenceDriver with
  | some dr => dr.expression == e && dr.vars.contains ("follow_spring", path)
  | none => false

/-- Claim C1 exactly as stated: each deform bone receives exactly two
transform-copy constraints, "Follow Manual" targeting the same-index control
bone and "Follow Spring" targeting the same-index mechanical-target bone, and
their influence values are driven by `1 - follow_spring` and `follow_spring`
respectively, each bound to the `follow_spring` knob on the first source
bone. -/
def C1AsStated (s : Skeleton) (org : List String) : Prop :=
  ∀ p ∈ (deformBoneNames org).zip ((mchTargetNames org).zip (controlBoneNames org)),
    (s p.1).constraints.length = 2 ∧
    (∀ c ∈ (s p.1).constraints, c.ctype = "COPY_TRANSFORMS") ∧
    (∃ c ∈ (s p.1).constraints, c.name = some ("Follow Manual") ∧ c.subtarget = p.2.2 ∧
      drivenBy c ("1 - follow_spring")
        (pathFromId org.headI ++ "[\"follow_spring\"]") = true) ∧
    (∃ c ∈ (s p.1).constraints, c.name = some ("Follow Spring") ∧ c.subtarget = p.2.1 ∧
      drivenBy c ("follow_spring")
        (pathFromId org.headI ++ "[\"follow_spring\"]") = true)

instance (s : Skeleton) (org : List String) : Decidable (C1AsStated s org) := by
  unfold C1AsStated
  infer_instance

/-- C1 counterexample: on the chain `ORG-A/B/C` the claim as stated is false —
the "Follow Manual" constraint created at `springChain.py:353-358` carries no
influence driver at all (no `1 - follow_spring` expression exists anywhere in
the generator). -/
theorem C1_counterexample :
    ¬ C1AsStated ((generate witnessSkel ["ORG-A", "ORG-B", "ORG-C"] ("root") ⟨false⟩).1)
      ["ORG-A", "ORG-B", "ORG-C"] := by decide

/-- The full constraint stack each deform bone ends with: the undriven
"Follow Manual" copy-transforms constraint targeting the same-index control
bone, then the "Follow Spring" copy-transforms constraint targeting the
same-index mechanical-target bone, whose influence is driven by the scripted
expression `follow_spring` bound to the `follow_spring` knob on the first
source bone. -/
def C1AmendedStatement (s : Skeleton) (org : List String) (op : String) (params : Params) : Prop :=
  ∀ p ∈ (deformBoneNames org).zip ((mchTargetNames org).zip (controlBoneNames org)),
    ((generate s org op params).1 p.1).constraints =
      [followManualCon p.2.2, followSpringCon org.headI p.2.1]

lemma posePhases_deform_constraints (E : Skeleton) (org : List String) (u : Bool)
    (nf : NameFacts org)
    (hE : ∀ d ∈ deformBoneNames org, (E d).constraints = []) :
    ∀ p ∈ (deformBoneNames org).zip ((mchTargetNames org).zip (controlBoneNames org)),
      ((posePhases E org u) p.1).constraints =
        [followManualCon p.2.2, followSpringCon org.headI p.2.1] := by
  intro p hp
  have hd : p.1 ∈ deformBoneNames org := (List.of_mem_zip hp).1
  have hd_pv : p.1 ∉ ((deformBoneNames org).zip (previewBoneNames org)).map Prod.snd := by
    rw [keys_preview]; exact fun h => nf.d_p hd h
  have hd_ms : p.1 ∉ ((mchSourceNames org).zip (controlBoneNames org)).map Prod.fst := by
    rw [keys_copyRot]; exact fun h => nf.d_ms hd h
  have hd_mt : p.1 ∉ ((mchSourceNames org).zip (mchTargetNames org)).map Prod.snd := by
    rw [keys_spring]; exact fun h => nf.d_mt hd h
  have hkeys : (((deformBoneNames org).zip
      ((mchTargetNames org).zip (controlBoneNames org))).map Prod.fst).Nodup := by
    rw [keys_deform]; exact nf.nd_d
  rw [posePhases_eq, previewConstraintPhase_eq,
    keyFold_preserve Prod.snd previewStep _ _ _ hd_pv,
    deformConstraintPhase_eq,
    keyFold_get Prod.fst (deformStep org.headI) _ _ p hp hkeys]
  show ((copyRotationPhase _ _ _) p.1).constraints ++
      [followManualCon p.2.2, followSpringCon org.headI p.2.1] = _
  rw [copyRotationPhase_eq, keyFold_preserve Prod.fst copyRotStep _ _ _ hd_ms,
    springConstraintPhase_eq,
    keyFold_preserve Prod.snd (springStep org.headI u) _ _ _ hd_mt,
    ite_unify_constraints, setPropOp_constraints, lockPhase_constraints,
    hideSelectPhase_constraints, hE p.1 hd]
  rfl

/-- C1 (amended): each deform bone receives exactly the two transform-copy
constraints "Follow Manual" (same-index control bone) and "Follow Spring"
(same-index mechanical-target bone); the "Follow Spring" influence is driven
by the expression `follow_spring` bound to the `follow_spring` knob on the
first source bone, while the "Follow Manual" influence carries no driver. -/
theorem C1_amended_deform_constraints (s : Skeleton) (org : List String) (op : String)
    (params : Params) (hN : 3 ≤ org.length) (hnd : (allBoneNames org).Nodup) :
    C1AmendedStatement s org op params := by
  have nf := nameFacts org hnd
  have hE : ∀ d ∈ deformBoneNames org, ((editPhases s org op) d).constraints = [] := by
    intro d hd
    rw [editPhases_constraints]
    obtain ⟨b, hb⟩ := createAllCopies_fresh org s d (by simp [allDerivedNames, hd])
    rw [hb]
    rfl
  intro p hp
  exact posePhases_deform_constraints (editPhases s org op) org params.unify_spring_props
    nf hE p hp

theorem C1_amended_deform_constraints_witness :
    (3 ≤ (["ORG-A", "ORG-B", "ORG-C"] : List String).length) ∧
    (allBoneNames ["ORG-A", "ORG-B", "ORG-C"]).Nodup ∧
    C1AmendedStatement witnessSkel ["ORG-A", "ORG-B", "ORG-C"] ("root") ⟨false⟩ :=
  ⟨by decide, by decide,
    C1_amended_deform_constraints witnessSkel ["ORG-A", "ORG-B", "ORG-C"] ("root") ⟨false⟩
      (by decide) (by decide)⟩

/-! ## Claim C10 -/

lemma hideSelectPhase_get (s : Skeleton) (names : List String) (x : String)
    (hx : x ∈ names) (hnd : names.Nodup) :
    (hideSelectPhase s names) x = hideSelectStep (s x) := by
  rw [hideSelectPhase_eq]
  have h := keyFold_get (fun b => b) (fun _ => hideSelectStep) names s x hx (by simpa using hnd)
  simpa using h

lemma lockPhase_get (s : Skeleton) (names : List String) (x : String)
    (hx : x ∈ names) (hnd : names.Nodup) :
    (lockPhase s names) x = lockStep (s x) := by
  rw [lockPhase_eq]
  have h := keyFold_get (fun b => b) (fun _ => lockStep) names s x hx (by simpa using hnd)
  simpa using h

/-- The flag assignments claimed by C10: on every preview bone, all location,
rotation (incl. 4D and w) and scale channels are locked and `hide_select` is
set — `flagState` lists exactly `hide_select` followed by the eleven lock
flags. -/
def C10Statement (s : Skeleton) (org : List String) (op : String) (params : Params) : Prop :=
  ∀ pv ∈ previewBoneNames org,
    flagState ((generate s org op params).1 pv) =
      [true, true, true, true, true, true, true, true, true, true, true, true]

/-- C10: after every generation, every preview bone ends with all transform
channels locked (location x/y/z, rotation x/y/z, 4D rotation including w,
scale x/y/z) and with selection hidden (`hide_select`), making the preview
chain non-interactive. -/
theorem C10_preview_locks (s : Skeleton) (org : List String) (op : String) (params : Params)
    (hN : 3 ≤ org.length) (hnd : (allBoneNames org).Nodup) :
    C10Statement s org op params := by
  have nf := nameFacts org hnd
  intro pv hpv
  rw [generate_fst, posePhases_eq]
  rw [previewConstraintPhase_flagState, deformConstraintPhase_flagState,
    copyRotationPhase_flagState, springConstraintPhase_flagState, ite_unify_flagState,
    setPropOp_flagState]
  rw [lockPhase_get _ _ _ hpv nf.nd_p, hideSelectPhase_get _ _ _ hpv nf.nd_p]
  rfl

theorem C10_preview_locks_witness :
    (3 ≤ (["ORG-A", "ORG-B", "ORG-C"] : List String).length) ∧
    (allBoneNames ["ORG-A", "ORG-B", "ORG-C"]).Nodup ∧
    C10Statement witnessSkel ["ORG-A", "ORG-B", "ORG-C"] ("root") ⟨true⟩ :=
  ⟨by decide, by decide,
    C10_preview_locks witnessSkel ["ORG-A", "ORG-B", "ORG-C"] ("root") ⟨true⟩
      (by decide) (by decide)⟩

/-! ## Claim C5 -/

lemma setPropOp_get (s : Skeleton) (bn pn : String) (p : UIProp) :
    ((setPropOp s bn pn p) bn).props = insertProp (s bn).props pn p := by
  unfold setPropOp
  rw [pointUpdate_apply_eq]

lemma setPropOp_ne (s : Skeleton) (bn pn : String) (p : UIProp) (x : String) (hx : x ≠ bn) :
    (setPropOp s bn pn p) x = s x := pointUpdate_apply_ne _ _ _ _ hx

lemma headI_mem (org : List String) (hN : 3 ≤ org.length) : org.headI ∈ org := by
  cases org with
  | nil => simp at hN
  | cons a t => exact List.mem_cons_self _ _

lemma headI_not_derived (org : List String) (nf : NameFacts org) (hmem : org.headI ∈ org) :
    org.headI ∉ allDerivedNames org := by
  intro h
  simp only [allDerivedNames, List.mem_append] at h
  rcases h with (((h | h) | h) | h) | h
  · exact nf.org_d hmem h
  · exact nf.org_ms hmem h
  · exact nf.org_mt hmem h
  · exact nf.org_c hmem h
  · exact nf.org_p hmem h

lemma springStep_props_true (pb : String) (p : String × String) (b : Bone) :
    (springStep pb true p b).props =
      insertProp (insertProp (insertProp b.props ("speed_factor") factorProp)
        ("gravity_factor") factorProp) ("damping_factor") factorProp := rfl

/-- The property schema claimed by C5 (unify mode): the first source bone
carries `follow_spring` followed by exactly the nine global spring knobs with
the table's ranges, and every mechanical-target bone carries exactly the three
factor knobs `speed_factor`, `gravity_factor`, `damping_factor`, each with
value 1 and hard range = soft range = `[0, 100]`. -/
def C5Statement (s : Skeleton) (org : List String) (op : String) (params : Params) : Prop :=
  (((generate s org op params).1 org.headI).props =
    ("follow_spring", mkProp 1 0 1) ::
      unifyPropTable.map (fun q => (q.1, mkProp q.2.2.2 q.2.1 q.2.2.1))) ∧
  (∀ p ∈ (mchSourceNames org).zip (mchTargetNames org),
    ((generate s org op params).1 p.2).props =
      [("speed_factor", factorProp), ("gravity_factor", factorProp),
       ("damping_factor", factorProp)])

/-- C5: with `unify_spring_props` true, exactly 9 global spring-parameter
knobs are created once on the first source bone's pose identity (after the
`follow_spring` knob), and exactly 3 factor knobs are created on each
mechanical-target bone (3×N total), each factor knob with
min = soft_min = 0, max = soft_max = 100 and default value 1. -/
theorem C5_unified_props (s : Skeleton) (org : List String) (op : String) (params : Params)
    (hN : 3 ≤ org.length) (hu : params.unify_spring_props = true)
    (hnd : (allBoneNames org).Nodup) (hprops : (s org.headI).props = []) :
    C5Statement s org op params := by
  have nf := nameFacts org hnd
  have hpb_mem : org.headI ∈ org := headI_mem org hN
  have hpb_nd : org.headI ∉ allDerivedNames org := headI_not_derived org nf hpb_mem
  constructor
  · rw [generate_fst, posePhases_eq, hu]
    simp only [if_true]
    rw [previewConstraintPhase_props, deformConstraintPhase_props, copyRotationPhase_props,
      springConstraintPhase_eq,
      keyFold_preserve Prod.snd (springStep org.headI true) _ _ _
        (by rw [keys_spring]; exact fun h => nf.org_mt hpb_mem h),
      unifyGlobalProps_eq, keyFold_const_key, foldl_unify_props, setPropOp_get,
      lockPhase_props, hideSelectPhase_props, editPhases_props,
      createAllCopies_preserve org s org.headI hpb_nd, hprops]
    rfl
  · intro p hp
    have ht : p.2 ∈ mchTargetNames org := (List.of_mem_zip hp).2
    have htpb : p.2 ≠ org.headI := fun h => nf.org_mt hpb_mem (h ▸ ht)
    rw [generate_fst, posePhases_eq, hu]
    simp only [if_true]
    rw [previewConstraintPhase_props, deformConstraintPhase_props, copyRotationPhase_props,
      springConstraintPhase_eq,
      keyFold_get Prod.snd (springStep org.headI true) _ _ p hp
        (by rw [keys_spring]; exact nf.nd_mt),
      springStep_props_true, unifyGlobalProps_eq,
      keyFold_preserve _ _ _ _ _
        (by
          intro h
          rcases List.mem_map.mp h with ⟨q, _, hq⟩
          exact htpb hq.symm),
      setPropOp_ne _ _ _ _ _ htpb, lockPhase_props, hideSelectPhase_props, editPhases_props]
    obtain ⟨b, hb⟩ := createAllCopies_fresh org s p.2
      (by simp [allDerivedNames]; right; right; left; exact ht)
    rw [hb]
    rfl

theorem C5_unified_props_witness :
    (3 ≤ (["ORG-A", "ORG-B", "ORG-C"] : List String).length) ∧
    (Params.unify_spring_props ⟨true⟩ = true) ∧
    (allBoneNames ["ORG-A", "ORG-B", "ORG-C"]).Nodup ∧
    (witnessSkel (["ORG-A", "ORG-B", "ORG-C"] : List String).headI).props = [] ∧
    C5Statement witnessSkel ["ORG-A", "ORG-B", "ORG-C"] ("root") ⟨true⟩ :=
  ⟨by decide, rfl, by decide, rfl,
    C5_unified_props witnessSkel ["ORG-A", "ORG-B", "ORG-C"] ("root") ⟨true⟩
      (by decide) rfl (by decide) rfl⟩

/-! ## Claim C4 -/

/-- Substring containment: `pat` occurs contiguously inside `s`. -/
def strContains (s pat : String) : Prop := List.IsInfix pat.data s.data

lemma strContains_self (s : String) : strContains s s := List.infix_rfl

lemma strContains_app_left (a b pat : String) (h : strContains a pat) :
    strContains (a ++ b) pat := by
  unfold strContains at *
  rw [String.data_append]
  exact h.trans ((List.prefix_append _ _).isInfix)

lemma strContains_app_right (a b pat : String) (h : strContains b pat) :
    strContains (a ++ b) pat := by
  unfold strContains at *
  rw [String.data_append]
  exact h.trans ((List.suffix_append _ _).isInfix)

lemma contains_in_springPropStr (dp : String) (ind : Nat) (q : String × String)
    (hq : q ∈ springPropLabels) :
    strContains (getSpringPropStr dp ind false) (propLine dp "" "" q) := by
  show strContains ("\n" ++ propLine dp "" "" ("speed", "Speed")
    ++ propLine dp "" "" ("damping", "Damping")
    ++ propLine dp "" "" ("gravity", "Gravity")
    ++ propLine dp "" "" ("stiffness_x", "Stiffness X")
    ++ propLine dp "" "" ("stiffness_y", "Stiffness Y")
    ++ propLine dp "" "" ("stiffness_z", "Stiffness Z")
    ++ propLine dp "" "" ("dist_threshold", "Distance threshold")
    ++ propLine dp "" "" ("fast_factor", "Fast factor")
    ++ propLine dp "" "" ("reset_on_frame", "Reset on frame")) (propLine dp "" "" q)
  simp only [springPropLabels, List.mem_cons, List.not_mem_nil, or_false] at hq
  rcases hq with h | h | h | h | h | h | h | h | h <;> subst h
  · iterate 8 apply strContains_app_left
    exact strContains_app_right _ _ _ (strContains_self _)
  · iterate 7 apply strContains_app_left
    exact strContains_app_right _ _ _ (strContains_self _)
  · iterate 6 apply strContains_app_left
    exact strContains_app_right _ _ _ (strContains_self _)
  · iterate 5 apply strContains_app_left
    exact strContains_app_right _ _ _ (strContains_self _)
  · iterate 4 apply strContains_app_left
    exact strContains_app_right _ _ _ (strContains_self _)
  · iterate 3 apply strContains_app_left
    exact strContains_app_right _ _ _ (strContains_self _)
  · iterate 2 apply strContains_app_left
    exact strContains_app_right _ _ _ (strContains_self _)
  · iterate 1 apply strContains_app_left
    exact strContains_app_right _ _ _ (strContains_self _)
  · exact strContains_app_right _ _ _ (strContains_self _)

lemma contains_in_propsDisplay (q : String × String) (hq : q ∈ springPropLabels) :
    strContains (getPropsDisplay true 1)
      (propLine ("pose_bones[spring].constraints[\"Spring\"i]") "" "" q) := by
  have h := contains_in_springPropStr ("pose_bones[spring].constraints[\"Spring\"i]") 2 q hq
  show strContains ("\n" ++ genTabs 1 ++ "for b in control_bones + preview_bones:\n"
    ++ genTabs 1 ++ "if is_selected([b, ]):\n"
    ++ genTabs 1 ++ "    spring = lookup[b]\n"
    ++ genTabs 1 ++ "    name = spring[len(\"MCH-\"):-len(\"_target\")]\n"
    ++ genTabs 1 ++ "    layout.label(text=\"Spring properties for \x27%s\x27\" % name)\n"
    ++ genTabs 1 ++ "    "
    ++ getSpringPropStr ("pose_bones[spring].constraints[\"Spring\"i]") (1 + 1) false
    ++ "\n") _
  apply strContains_app_left
  exact strContains_app_right _ _ _ h

lemma contains_lookup_line :
    strContains (getPropsDisplay true 1) ("    spring = lookup[b]\n") := by
  show strContains ("\n" ++ genTabs 1 ++ "for b in control_bones + preview_bones:\n"
    ++ genTabs 1 ++ "if is_selected([b, ]):\n"
    ++ genTabs 1 ++ "    spring = lookup[b]\n"
    ++ genTabs 1 ++ "    name = spring[len(\"MCH-\"):-len(\"_target\")]\n"
    ++ genTabs 1 ++ "    layout.label(text=\"Spring properties for \x27%s\x27\" % name)\n"
    ++ genTabs 1 ++ "    "
    ++ getSpringPropStr ("pose_bones[spring].constraints[\"Spring\"i]") (1 + 1) false
    ++ "\n") _
  iterate 8 apply strContains_app_left
  exact strContains_app_right _ _ _ (strContains_self _)

lemma contains_in_mainScript (pb : String) (lk : List (String × String))
    (c pv sp : List String) (pat : String) (h : strContains (getPropsDisplay true 1) pat) :
    strContains (getMainScript true pb lk c pv sp) pat := by
  show strContains ((mainScriptHeader pb lk c pv sp ++ getPropsDisplay true 1) ++ "\n") pat
  exact strContains_app_left _ _ _ (strContains_app_right _ _ _ h)

/-- The C4 property: with `unify_spring_props` false, the only custom
property anywhere is `follow_spring` on the first source bone (every derived
bone ends with an empty property dict), and the emitted UI script is the
individual-mode script, whose text contains — for the selection loop over
control and preview bones resolved through `spring = lookup[b]` — one
`layout.prop` display line for each of the nine native spring-constraint
parameters on the looked-up spring instance's data path. -/
def C4Statement (s : Skeleton) (org : List String) (op : String) (params : Params) : Prop :=
  (((generate s org op params).1 org.headI).props = [("follow_spring", mkProp 1 0 1)]) ∧
  (∀ x ∈ allDerivedNames org, ((generate s org op params).1 x).props = []) ∧
  ((generate s org op params).2 =
    [getMainScript true org.headI (lookupForUI org) (controlBoneNames org)
      (previewBoneNames org) (mchTargetNames org)]) ∧
  (∀ q ∈ springPropLabels,
    strContains
      (getMainScript true org.headI (lookupForUI org) (controlBoneNames org)
        (previewBoneNames org) (mchTargetNames org))
      (propLine ("pose_bones[spring].constraints[\"Spring\"i]") "" "" q)) ∧
  strContains
    (getMainScript true org.headI (lookupForUI org) (controlBoneNames org)
      (previewBoneNames org) (mchTargetNames org)) ("    spring = lookup[b]\n")

/-- C4: with `unify_spring_props` false, no custom properties other than
`follow_spring` are created (no global spring knobs and no per-instance
factor knobs), and the emitted UI script displays, for each selected control
or preview bone, the 9 native spring-constraint parameters (speed, damping,
gravity, stiffness_x/y/z, dist_threshold, fast_factor, reset_on_frame) of the
spring instance resolved via the lookup table.  (The script text reproduces
the source's data path literally, including the stray `i` in
`constraints["Spring"i]`.) -/
theorem C4_non_unified_props_and_script (s : Skeleton) (org : List String) (op : String)
    (params : Params) (hN : 3 ≤ org.length) (hu : params.unify_spring_props = false)
    (hnd : (allBoneNames org).Nodup) (hprops : (s org.headI).props = []) :
    C4Statement s org op params := by
  have nf := nameFacts org hnd
  have hpb_mem := headI_mem org hN
  have hpb_nd := headI_not_derived org nf hpb_mem
  refine ⟨?_, ?_, ?_,
    fun q hq => contains_in_mainScript _ _ _ _ _ _ (contains_in_propsDisplay q hq),
    contains_in_mainScript _ _ _ _ _ _ contains_lookup_line⟩
  · rw [generate_fst, hu, posePhases_eq]
    simp only [Bool.false_eq_true, if_false]
    rw [previewConstraintPhase_props, deformConstraintPhase_props, copyRotationPhase_props,
      springConstraintPhase_props_false, setPropOp_get, lockPhase_props, hideSelectPhase_props,
      editPhases_props, createAllCopies_preserve org s org.headI hpb_nd, hprops]
    rfl
  · intro x hx
    have hxpb : x ≠ org.headI := fun h => hpb_nd (h ▸ hx)
    rw [generate_fst, hu, posePhases_eq]
    simp only [Bool.false_eq_true, if_false]
    rw [previewConstraintPhase_props, deformConstraintPhase_props, copyRotationPhase_props,
      springConstraintPhase_props_false, setPropOp_ne _ _ _ _ _ hxpb, lockPhase_props,
      hideSelectPhase_props, editPhases_props]
    obtain ⟨b, hb⟩ := createAllCopies_fresh org s x hx
    rw [hb]
    rfl
  · have hscr : (generate s org op params).2 =
        [getMainScript (!params.unify_spring_props) org.headI (lookupForUI org)
          (controlBoneNames org) (previewBoneNames org) (mchTargetNames org)] := rfl
    rw [hscr, hu]
    rfl

theorem C4_non_unified_props_and_script_witness :
    (3 ≤ (["ORG-A", "ORG-B", "ORG-C"] : List String).length) ∧
    (Params.unify_spring_props ⟨false⟩ = false) ∧
    (allBoneNames ["ORG-A", "ORG-B", "ORG-C"]).Nodup ∧
    (witnessSkel (["ORG-A", "ORG-B", "ORG-C"] : List String).headI).props = [] ∧
    C4Statement witnessSkel ["ORG-A", "ORG-B", "ORG-C"] ("root") ⟨false⟩ :=
  ⟨by decide, rfl, by decide, rfl,
    C4_non_unified_props_and_script witnessSkel ["ORG-A", "ORG-B", "ORG-C"] ("root") ⟨false⟩
      (by decide) rfl (by decide) rfl⟩

/-! ## Claim C7 -/

lemma dictInsert_fresh :
    ∀ (d : List (String × String)) (k v : String), k ∉ d.map Prod.fst →
      dictInsert d k v = d ++ [(k, v)] := by
  intro d
  induction d with
  | nil => intro k v _; rfl
  | cons q d ih =>
    intro k v hk
    simp only [List.map_cons, List.mem_cons, not_or] at hk
    show (if q.1 = k then (k, v) :: d else q :: dictInsert d k v) = _
    rw [if_neg (fun h => hk.1 h.symm), ih _ _ hk.2]
    rfl

lemma foldl_dictInsert_fresh :
    ∀ (pairs d : List (String × String)), (pairs.map Prod.fst).Nodup →
      (∀ k ∈ pairs.map Prod.fst, k ∉ d.map Prod.fst) →
      pairs.foldl (fun acc p => dictInsert acc p.1 p.2) d = d ++ pairs := by
  intro pairs
  induction pairs with
  | nil => intro d _ _; simp
  | cons p pairs ih =>
    intro d hnd hfresh
    simp only [List.map_cons, List.nodup_cons] at hnd
    rw [List.foldl_cons, dictInsert_fresh d p.1 p.2 (hfresh p.1 (by simp)),
      ih (d ++ [(p.1, p.2)]) hnd.2]
    · simp
    · intro k hk
      simp only [List.map_append, List.mem_append, List.map_cons, List.map_nil] at *
      rintro (hkd | hkp)
      · exact hfresh k (List.mem_cons_of_mem _ hk) hkd
      · simp only [List.mem_singleton] at hkp
        exact hnd.1 (hkp ▸ hk)

lemma dictFind_zip :
    ∀ (ks vs : List String), ks.Nodup → ∀ p ∈ ks.zip vs, dictFind (ks.zip vs) p.1 = some p.2 := by
  intro ks
  induction ks with
  | nil => intro vs _ p hp; cases hp
  | cons k ks ih =>
    intro vs hnd p hp
    cases vs with
    | nil => cases hp
    | cons v vs =>
      simp only [List.nodup_cons] at hnd
      rcases List.mem_cons.mp hp with h | h
      · subst h
        show (if k = k then some v else _) = some v
        rw [if_pos rfl]
      · have hp1 : p.1 ∈ ks := (List.of_mem_zip h).1
        have hne : k ≠ p.1 := fun he => hnd.1 (he ▸ hp1)
        show (if k = p.1 then some v else dictFind (ks.zip vs) p.1) = some p.2
        rw [if_neg hne]
        exact ih vs hnd.2 p h

lemma dictFind_append_of_mem :
    ∀ (d1 d2 : List (String × String)) (k v : String), dictFind d1 k = some v →
      dictFind (d1 ++ d2) k = some v := by
  intro d1
  induction d1 with
  | nil => intro d2 k v h; cases h
  | cons q d1 ih =>
    intro d2 k v h
    show (if q.1 = k then some q.2 else dictFind (d1 ++ d2) k) = some v
    by_cases hq : q.1 = k
    · rw [if_pos hq]
      simpa [dictFind, hq] using h
    · rw [if_neg hq]
      apply ih
      simpa [dictFind, hq] using h

lemma dictFind_append_of_not_mem :
    ∀ (d1 d2 : List (String × String)) (k : String), k ∉ d1.map Prod.fst →
      dictFind (d1 ++ d2) k = dictFind d2 k := by
  intro d1
  induction d1 with
  | nil => intro d2 k _; rfl
  | cons q d1 ih =>
    intro d2 k hk
    simp only [List.map_cons, List.mem_cons, not_or] at hk
    show (if q.1 = k then some q.2 else dictFind (d1 ++ d2) k) = dictFind d2 k
    rw [if_neg (fun h => hk.1 h.symm), ih _ _ hk.2]

lemma keys_zip_ctrl (org : List String) :
    ((controlBoneNames org).zip (mchTargetNames org)).map Prod.fst = controlBoneNames org := by
  apply List.map_fst_zip
  simp

lemma keys_zip_preview (org : List String) :
    ((previewBoneNames org).zip (mchTargetNames org)).map Prod.fst = previewBoneNames org := by
  apply List.map_fst_zip
  simp

/-- The lookup-table shape claimed by C7: the table is exactly the control
pairs followed by the preview pairs (each paired positionally with the
same-index mechanical-target name), hence has `2N` entries, its key list is
exactly the control names followed by the preview names, and looking up any
control or preview key yields the same-index mechanical-target name. -/
def C7Statement (org : List String) : Prop :=
  (lookupForUI org =
    (controlBoneNames org).zip (mchTargetNames org) ++
      (previewBoneNames org).zip (mchTargetNames org)) ∧
  ((lookupForUI org).length = 2 * org.length) ∧
  ((lookupForUI org).map Prod.fst = controlBoneNames org ++ previewBoneNames org) ∧
  (∀ p ∈ (controlBoneNames org).zip (mchTargetNames org),
    dictFind (lookupForUI org) p.1 = some p.2) ∧
  (∀ p ∈ (previewBoneNames org).zip (mchTargetNames org),
    dictFind (lookupForUI org) p.1 = some p.2)

/-- C7: for every generation over a source chain of length N, the lookup
table used for UI generation contains exactly 2N entries, its key set is
exactly the union of the N control-bone names and the N preview-bone names,
and each key maps to the mechanical-target bone name at the same chain
index. -/
theorem C7_lookup_table (org : List String) (hnd : (allBoneNames org).Nodup) :
    C7Statement org := by
  have nf := nameFacts org hnd
  have heq : lookupForUI org =
      (controlBoneNames org).zip (mchTargetNames org) ++
        (previewBoneNames org).zip (mchTargetNames org) := by
    unfold lookupForUI buildLookup
    rw [foldl_dictInsert_fresh _ [] (by rw [keys_zip_ctrl]; exact nf.nd_c) (by simp)]
    rw [foldl_dictInsert_fresh _ _ (by rw [keys_zip_preview]; exact nf.nd_p)]
    · simp
    · intro k hk
      rw [keys_zip_preview] at hk
      simp only [List.nil_append, keys_zip_ctrl]
      exact fun hc => nf.c_p hc hk
  refine ⟨heq, ?_, ?_, ?_, ?_⟩
  · rw [heq]
    simp only [List.length_append, List.length_zip, length_controlBoneNames,
      length_previewBoneNames, length_mchTargetNames, Nat.min_self]
    omega
  · rw [heq, List.map_append, keys_zip_ctrl, keys_zip_preview]
  · intro p hp
    rw [heq]
    exact dictFind_append_of_mem _ _ _ _ (dictFind_zip _ _ nf.nd_c p hp)
  · intro p hp
    rw [heq]
    have hk : p.1 ∉ ((controlBoneNames org).zip (mchTargetNames org)).map Prod.fst := by
      rw [keys_zip_ctrl]
      exact fun hc => nf.c_p hc (List.of_mem_zip hp).1
    rw [dictFind_append_of_not_mem _ _ _ hk]
    exact dictFind_zip _ _ nf.nd_p p hp

theorem C7_lookup_table_witness :
    (allBoneNames ["ORG-A", "ORG-B", "ORG-C"]).Nodup ∧
    C7Statement ["ORG-A", "ORG-B", "ORG-C"] :=
  ⟨by decide, C7_lookup_table ["ORG-A", "ORG-B", "ORG-C"] (by decide)⟩
